import Mathlib

/-!
Shallow embedding of the bulk product editor core (a Shopify bulk-editing
orchestrator) and proofs about it.

Sources embedded:
- app/services/products.server.ts (preview math: calculateMultiplier,
  clampPrice, parseCurrencyAmount, buildPriceAdjustmentPreview variant step)
- the current bulk-operations service (start, poll, complete, process
  results, undo, stuck-operation cleanup)
- app/models/operation.server.ts (operation rows, createOperation,
  updateOperation, findActiveOperationForShop, findOperationById)
- app/services/graphql-retry.server.ts (graphqlWithRetry,
  calculateBackoffDelay)

JavaScript numbers are modelled as rationals (ℚ); NaN, where it matters,
is modelled explicitly. Timestamps are naturals (milliseconds). The
database is a list of operation rows kept newest-first, so that a
List.find? models a SELECT ... ORDER BY created_at DESC LIMIT 1. Remote
calls are modelled by explicit outcome oracles passed as arguments.
-/

namespace BulkEditor

/-! ## products.server.ts: price preview math -/

inductive Direction
  | increase
  | decrease
deriving DecidableEq, Repr

/-- PriceAdjustment from products.server.ts: direction plus percentage. -/
structure PriceAdjustment where
  direction : Direction
  percentage : ℚ
deriving DecidableEq, Repr

/-- Rounding to two decimals, the effect of Number(x.toFixed(2)) on a
nonnegative number: round half up at the second decimal. -/
def round2 (q : ℚ) : ℚ :=
  (⌊q * 100 + 1 / 2⌋ : ℚ) / 100

/-- clampPrice from products.server.ts:
Number(Math.max(amount, 0).toFixed(2)). -/
def clampPrice (amount : ℚ) : ℚ :=
  round2 (max amount 0)

/-- calculateMultiplier from products.server.ts: 1 ± percentage/100,
floored at 0. -/
def calculateMultiplier (adjustment : PriceAdjustment) : ℚ :=
  let percentageDelta := adjustment.percentage / 100
  let base :=
    match adjustment.direction with
    | .increase => 1 + percentageDelta
    | .decrease => 1 - percentageDelta
  if base < 0 then 0 else base

/-- The after-price computed for one variant inside
buildPriceAdjustmentPreview: clampPrice(priceBefore * multiplier). -/
def previewPriceAfter (priceBefore : ℚ) (adjustment : PriceAdjustment) : ℚ :=
  clampPrice (priceBefore * calculateMultiplier adjustment)

/-- A JavaScript number that may be NaN (the possible results of
parseFloat). -/
inductive JsNumber
  | nan
  | val (q : ℚ)
deriving DecidableEq, Repr

/-- parseCurrencyAmount from products.server.ts. The argument may be
undefined (none) or a string; a falsy argument (undefined or the empty
string) yields 0, and a NaN parse result yields 0. parseFloat itself is
an oracle argument. -/
def parseCurrencyAmount (parseFloat : String → JsNumber)
    (amount : Option String) : JsNumber :=
  match amount with
  | none => .val 0
  | some s =>
    if s = "" then .val 0
    else
      match parseFloat s with
      | .nan => .val 0
      | .val q => .val q

/-- A variant as returned by the products-by-id query (price is an
optional string field). -/
structure SourceVariant where
  id : String
  title : String
  price : Option String
deriving DecidableEq, Repr

/-- PricePreviewVariant from products.server.ts. -/
structure PricePreviewVariant where
  id : String
  title : String
  priceBefore : ℚ
  priceAfter : ℚ
  currencyCode : String
deriving DecidableEq, Repr

/-- The per-variant mapping step of buildPriceAdjustmentPreview: parse the
price, drop the variant when the parse is NaN (the Number.isNaN guard),
otherwise emit before/after prices. -/
def buildPreviewVariant (parseFloat : String → JsNumber)
    (adjustment : PriceAdjustment) (currencyCode : String)
    (variant : SourceVariant) : Option PricePreviewVariant :=
  match parseCurrencyAmount parseFloat variant.price with
  | .nan => none
  | .val priceBefore =>
    some
      { id := variant.id
        title := variant.title
        priceBefore := priceBefore
        priceAfter := previewPriceAfter priceBefore adjustment
        currencyCode := currencyCode }

/-- PricePreviewProduct from products.server.ts. -/
structure PricePreviewProduct where
  id : String
  title : String
  status : String
  tags : List String
  variants : List PricePreviewVariant
deriving DecidableEq, Repr

/-- PricePreviewResult from products.server.ts. -/
structure PricePreviewResult where
  products : List PricePreviewProduct
  adjustment : PriceAdjustment
deriving DecidableEq, Repr

/-! ## Operation model (operation.server.ts) and service payloads -/

inductive OperationType
  | PRICE_ADJUSTMENT
  | TAG_UPDATE
  | STATUS_CHANGE
deriving DecidableEq, Repr

/-- Stored operation statuses. The TypeScript union in operation.server.ts
lists CREATED/RUNNING/COMPLETED/FAILED/CANCELED; the status column itself
is free text and the current bulk-operations service also writes EXPIRED,
so EXPIRED is included here. -/
inductive OperationStatus
  | CREATED
  | RUNNING
  | COMPLETED
  | FAILED
  | CANCELED
  | EXPIRED
deriving DecidableEq, Repr

/-- Remote bulk-operation statuses (BulkOperationStatus in the service). -/
inductive BulkOperationStatus
  | CREATED
  | RUNNING
  | COMPLETED
  | FAILED
  | CANCELED
  | CANCELING
  | EXPIRED
deriving DecidableEq, Repr

/-- BulkOperationPollResult from the bulk-operations service. -/
structure BulkOperationPollResult where
  id : String
  status : BulkOperationStatus
  errorCode : Option String := none
  objectCount : Option Nat := none
  fileSize : Option Nat := none
  url : Option String := none
  createdAt : Nat
  completedAt : Option Nat := none
deriving DecidableEq, Repr

/-- One entry of BulkOperationResults.errors. -/
structure ResultErrorEntry where
  productId : Option String := none
  variantId : Option String := none
  message : String
  field : Option String := none
deriving DecidableEq, Repr

/-- BulkOperationResults from the bulk-operations service. -/
structure BulkOperationResults where
  successful : Nat
  failed : Nat
  errors : List ResultErrorEntry
deriving DecidableEq, Repr

/-- One variant inside a PriceAdjustmentPayload. -/
structure PayloadVariant where
  id : String
  price : ℚ
deriving DecidableEq, Repr

/-- One product inside a PriceAdjustmentPayload (title is optional in the
current service). -/
structure PayloadProduct where
  id : String
  title : Option String := none
  variants : List PayloadVariant
deriving DecidableEq, Repr

/-- PriceAdjustmentPayload from the bulk-operations service. -/
structure PriceAdjustmentPayload where
  adjustment : PriceAdjustment
  products : List PayloadProduct
deriving DecidableEq, Repr

inductive TagAction
  | add
  | remove
  | replace
deriving DecidableEq, Repr

/-- The update part of a tag payload, as built by
startTagUpdateBulkOperation. -/
structure TagUpdateSpec where
  action : TagAction
  tags : List String
  replaceTags : Option (List String) := none
deriving DecidableEq, Repr

/-- One product inside a tag payload. -/
structure TagPayloadProduct where
  id : String
  title : Option String := none
  tagsBefore : List String
  tagsAfter : List String
deriving DecidableEq, Repr

/-- The tag-update payload persisted by startTagUpdateBulkOperation. -/
structure TagUpdatePayload where
  update : TagUpdateSpec
  products : List TagPayloadProduct
deriving DecidableEq, Repr

/-- The payload column stores loosely-typed JSON; rows written by this
service hold either a price payload or a tag payload. -/
inductive OpPayload
  | price (p : PriceAdjustmentPayload)
  | tag (t : TagUpdatePayload)
deriving DecidableEq, Repr

/-- OperationRecord from operation.server.ts. createdAt/updatedAt/
completedAt/undoneAt are millisecond timestamps. -/
structure OperationRecord where
  id : String
  shop : String
  type : OperationType
  status : OperationStatus
  payload : Option OpPayload := none
  inversePayload : Option OpPayload := none
  bulkOperationId : Option String := none
  results : Option BulkOperationResults := none
  errorMessage : Option String := none
  undone : Bool := false
  undoneAt : Option Nat := none
  undoneByOperationId : Option String := none
  createdAt : Nat
  updatedAt : Option Nat := none
  completedAt : Option Nat := none
deriving DecidableEq, Repr

/-- UpdateOperationInput from operation.server.ts: each field other than
the id is applied only when provided. -/
structure UpdateOperationInput where
  id : String
  status : Option OperationStatus := none
  bulkOperationId : Option String := none
  results : Option BulkOperationResults := none
  errorMessage : Option String := none
  completedAt : Option Nat := none
  undone : Option Bool := none
  undoneAt : Option Nat := none
  undoneByOperationId : Option String := none
deriving DecidableEq, Repr

/-- The effect on one row of the UPDATE statement built by
updateOperation: every provided field is written, updated_at is always
written. -/
def applyUpdate (now : Nat) (u : UpdateOperationInput)
    (op : OperationRecord) : OperationRecord :=
  { op with
    status := u.status.getD op.status
    bulkOperationId := match u.bulkOperationId with
      | some v => some v
      | none => op.bulkOperationId
    results := match u.results with
      | some v => some v
      | none => op.results
    errorMessage := match u.errorMessage with
      | some v => some v
      | none => op.errorMessage
    completedAt := match u.completedAt with
      | some v => some v
      | none => op.completedAt
    undone := u.undone.getD op.undone
    undoneAt := match u.undoneAt with
      | some v => some v
      | none => op.undoneAt
    undoneByOperationId := match u.undoneByOperationId with
      | some v => some v
      | none => op.undoneByOperationId
    updatedAt := some now }

/-- updateOperation from operation.server.ts: UPDATE ... WHERE id = ?. -/
def updateOperation (now : Nat) (u : UpdateOperationInput)
    (db : List OperationRecord) : List OperationRecord :=
  db.map fun op => if op.id = u.id then applyUpdate now u op else op

/-- findOperationById from operation.server.ts. -/
def findOperationById (id : String) (db : List OperationRecord) :
    Option OperationRecord :=
  db.find? fun op => op.id = id

/-- The status filter of findActiveOperationForShop:
status IN ('CREATED', 'RUNNING'). -/
def isActiveStatus : OperationStatus → Bool
  | .CREATED => true
  | .RUNNING => true
  | _ => false

/-- findActiveOperationForShop from operation.server.ts. The database list
is kept newest-first, so find? models ORDER BY created_at DESC LIMIT 1. -/
def findActiveOperationForShop (shop : String)
    (db : List OperationRecord) : Option OperationRecord :=
  db.find? fun op => op.shop = shop ∧ isActiveStatus op.status

/-- createOperation from operation.server.ts: a fresh row in status
CREATED; the generated id and the current time are supplied by the
caller of the model. The new row is prepended (newest first). -/
def createOperation (now : Nat) (newId : String) (shop : String)
    (type : OperationType) (payload : OpPayload)
    (inversePayload : Option OpPayload) (db : List OperationRecord) :
    OperationRecord × List OperationRecord :=
  let op : OperationRecord :=
    { id := newId
      shop := shop
      type := type
      status := .CREATED
      payload := some payload
      inversePayload := inversePayload
      createdAt := now }
  (op, op :: db)

/-! ## Bulk-operations service: remote oracles -/

/-- The node returned by the bulk-operation status query when the remote
side knows the job. -/
structure PollNode where
  id : String
  status : BulkOperationStatus
  errorCode : Option String := none
  objectCount : Option Nat := none
  fileSize : Option Nat := none
  url : Option String := none
  createdAt : Nat
  completedAt : Option Nat := none
deriving DecidableEq, Repr

/-- Outcome of the status query issued by pollBulkOperationStatus: a
response whose node may be missing, or a transport failure (an exception
out of graphqlWithRetry). -/
inductive PollNetOutcome
  | ok (node : Option PollNode)
  | failure
deriving DecidableEq, Repr

/-- Outcome of the staged-upload handshake performed by
uploadBulkOperationFile: the storage key, or a thrown error. -/
inductive UploadOutcome
  | ok (key : String)
  | failure (msg : String)
deriving DecidableEq, Repr

/-- Outcome of the bulkOperationRunMutation submission: a response with
its userErrors list and optional bulk-operation id, or a thrown
transport error. -/
inductive SubmitOutcome
  | response (userErrors : List String) (bulkOperationId : Option String)
  | failure (msg : String)
deriving DecidableEq, Repr

/-- One line of the downloaded JSONL result file: either JSON.parse
throws, or it yields an item whose relevant fields are captured here.
userErrors models item.userErrors (absent = empty list),
nestedUserErrors models item.data?.productVariantsBulkUpdate?.userErrors,
parentId models item.__parentId. -/
inductive JsonLine
  | malformed
  | parsed (userErrors : List (String × Option (List String)))
      (nestedUserErrors : List (String × Option (List String)))
      (parentId : Option String)
deriving DecidableEq, Repr

/-- Outcome of fetching the result file URL: its nonempty lines, or a
fetch/parse failure thrown by processBulkOperationResults. -/
inductive FetchOutcome
  | ok (lines : List JsonLine)
  | failure
deriving DecidableEq, Repr

/-- All remote interactions of the service, as outcome oracles. The
uploaded JSONL content (one serialized line per product) does not affect
the control flow modelled here, so the upload outcome is a plain value
and the submit outcome depends on the staged path only. -/
structure RemoteOracle where
  poll : String → PollNetOutcome
  upload : UploadOutcome
  submit : String → SubmitOutcome
  fetchResults : String → FetchOutcome

/-- Truthiness of an optional string in JavaScript: present and
nonempty. -/
def strTruthy : Option String → Bool
  | none => false
  | some s => s ≠ ""

/-! ## pollBulkOperationStatus -/

/-- pollBulkOperationStatus from the current bulk-operations service: a
missing node becomes a synthesized EXPIRED/NOT_FOUND result, a thrown
error is caught and becomes a synthesized FAILED/POLL_ERROR result; the
catch-all timestamps use the current time. -/
def pollBulkOperationStatus (poll : String → PollNetOutcome) (now : Nat)
    (bulkOperationId : String) : BulkOperationPollResult :=
  match poll bulkOperationId with
  | .ok none =>
    { id := bulkOperationId
      status := .EXPIRED
      errorCode := some "NOT_FOUND"
      createdAt := now
      completedAt := some now }
  | .ok (some node) =>
    { id := node.id
      status := node.status
      errorCode := node.errorCode
      objectCount := node.objectCount
      fileSize := node.fileSize
      url := node.url
      createdAt := node.createdAt
      completedAt := node.completedAt }
  | .failure =>
    { id := bulkOperationId
      status := .FAILED
      errorCode := some "POLL_ERROR"
      createdAt := now
      completedAt := some now }

/-! ## Stuck-operation cleanup -/

/-- The staleness window of the stuck-operation sweep: one hour, in
milliseconds. -/
def staleWindowMs : Nat := 3600000

/-- Modelled from the spec: findStuckOperations is imported by the
bulk-operations service from the operation model, but its definition is
not among the sources; per the spec (stale-job sweep), it returns the
shop's operations in CREATED or RUNNING older than the one-hour
staleness window. -/
def findStuckOperations (now : Nat) (shop : String)
    (db : List OperationRecord) : List OperationRecord :=
  db.filter fun op =>
    op.shop = shop ∧ isActiveStatus op.status
      ∧ op.createdAt + staleWindowMs < now

/-- cleanupStuckOperations from the current bulk-operations service: each
stuck operation with a remote id is polled and marked EXPIRED when the
remote side reports EXPIRED or NOT_FOUND; a stuck operation without a
remote id is marked FAILED. -/
def cleanupStuckOperations (poll : String → PollNetOutcome) (now : Nat)
    (shop : String) (db : List OperationRecord) : List OperationRecord :=
  let stuckOperations := findStuckOperations now shop db
  stuckOperations.foldl
    (fun acc op =>
      match op.bulkOperationId with
      | some bid =>
        let status := pollBulkOperationStatus poll now bid
        if status.status = .EXPIRED ∨ status.errorCode = some "NOT_FOUND" then
          updateOperation now
            { id := op.id
              status := some .EXPIRED
              completedAt := some now
              errorMessage := some
                "Auto-expired: bulk operation not found in Shopify or timed out (>1 hour)" }
            acc
        else acc
      | none =>
        updateOperation now
          { id := op.id
            status := some .FAILED
            completedAt := some now
            errorMessage := some
              "Auto-failed: no bulk operation ID found after 1 hour" }
          acc)
    db

/-! ## processBulkOperationResults -/

/-- An errors-list entry derived from one user error, top-level form
(carries the parent product id). -/
def topLevelErrorEntry (parentId : Option String)
    (e : String × Option (List String)) : ResultErrorEntry :=
  { productId := parentId
    message := e.1
    field := e.2.map (String.intercalate ".") }

/-- An errors-list entry derived from one user error nested under
productVariantsBulkUpdate (no product id). -/
def nestedErrorEntry (e : String × Option (List String)) :
    ResultErrorEntry :=
  { message := e.1
    field := e.2.map (String.intercalate ".") }

/-- The loop body of processBulkOperationResults, acting on the
accumulated counters for one line. -/
def processLine (acc : BulkOperationResults) (line : JsonLine) :
    BulkOperationResults :=
  match line with
  | .malformed =>
    { acc with errors := acc.errors ++ [{ message := "Failed to parse result line" }] }
  | .parsed userErrors nestedUserErrors parentId =>
    if userErrors ≠ [] then
      { acc with
        failed := acc.failed + 1
        errors := acc.errors ++ userErrors.map (topLevelErrorEntry parentId) }
    else if nestedUserErrors ≠ [] then
      { acc with
        failed := acc.failed + 1
        errors := acc.errors ++ nestedUserErrors.map nestedErrorEntry }
    else
      { acc with successful := acc.successful + 1 }

/-- processBulkOperationResults from the current bulk-operations service,
after the fetch: iterate over the nonempty lines of the JSONL blob. -/
def processBulkOperationResults (lines : List JsonLine) :
    BulkOperationResults :=
  lines.foldl processLine { successful := 0, failed := 0, errors := [] }

/-- The entries that one JSONL line contributes to the errors list. -/
def lineEntries : JsonLine → List ResultErrorEntry
  | .malformed => [{ message := "Failed to parse result line" }]
  | .parsed userErrors nestedUserErrors parentId =>
    if userErrors ≠ [] then userErrors.map (topLevelErrorEntry parentId)
    else if nestedUserErrors ≠ [] then nestedUserErrors.map nestedErrorEntry
    else []

/-- Syntactic validity of one JSONL line. -/
def isWellFormed : JsonLine → Bool
  | .malformed => false
  | .parsed _ _ _ => true

/-! ## completeBulkOperation -/

/-- The error message written when a poll result is EXPIRED or
NOT_FOUND. -/
def expiredMessage : String :=
  "Bulk operation expired or not found in Shopify. This can happen with old operations (>7 days)."

/-- The updates object built by completeBulkOperation from a poll
result: the initial COMPLETED/EXPIRED/FAILED mapping, the early
EXPIRED/NOT_FOUND return, the result-file processing with its caught
failure, and the error-code override. -/
def completeUpdates (fetchResults : String → FetchOutcome) (now : Nat)
    (operationId : String) (r : BulkOperationPollResult) :
    UpdateOperationInput :=
  let status0 : OperationStatus :=
    if r.status = .COMPLETED then .COMPLETED
    else if r.status = .EXPIRED then .EXPIRED
    else .FAILED
  let completedAt := r.completedAt.getD now
  if r.status = .EXPIRED ∨ r.errorCode = some "NOT_FOUND" then
    { id := operationId
      status := some .EXPIRED
      completedAt := some completedAt
      errorMessage := some expiredMessage }
  else
    let processed : Option BulkOperationResults × Option String :=
      if strTruthy r.url ∧ r.status = .COMPLETED then
        match fetchResults (r.url.getD "") with
        | .ok lines => (some (processBulkOperationResults lines), none)
        | .failure => (none, some "Failed to process operation results")
      else (none, none)
    if strTruthy r.errorCode ∨ r.status = .FAILED then
      { id := operationId
        status := some .FAILED
        completedAt := some completedAt
        results := processed.1
        errorMessage := some
          (match r.errorCode with
           | some s => if s = "" then "Bulk operation failed" else s
           | none => "Bulk operation failed") }
    else
      { id := operationId
        status := some status0
        completedAt := some completedAt
        results := processed.1
        errorMessage := processed.2 }

/-- completeBulkOperation from the current bulk-operations service:
build the updates from the poll result and write them through
updateOperation, returning the re-read row. -/
def completeBulkOperation (fetchResults : String → FetchOutcome)
    (now : Nat) (operationId : String) (r : BulkOperationPollResult)
    (db : List OperationRecord) :
    List OperationRecord × Option OperationRecord :=
  let db2 := updateOperation now (completeUpdates fetchResults now operationId r) db
  (db2, findOperationById operationId db2)

/-! ## Starting bulk operations -/

/-- The forward payload built by startPriceAdjustmentBulkOperation: per
variant, the preview's after-price. -/
def buildForwardPricePayload (preview : PricePreviewResult) :
    PriceAdjustmentPayload :=
  { adjustment := preview.adjustment
    products := preview.products.map fun product =>
      { id := product.id
        title := some product.title
        variants := product.variants.map fun variant =>
          { id := variant.id, price := variant.priceAfter } } }

/-- The inverse payload built by startPriceAdjustmentBulkOperation:
direction flipped, same percentage, and per variant the preview's
before-price. -/
def buildInversePricePayload (preview : PricePreviewResult) :
    PriceAdjustmentPayload :=
  { adjustment :=
      { direction :=
          match preview.adjustment.direction with
          | .increase => .decrease
          | .decrease => .increase
        percentage := preview.adjustment.percentage }
    products := preview.products.map fun product =>
      { id := product.id
        title := some product.title
        variants := product.variants.map fun variant =>
          { id := variant.id, price := variant.priceBefore } } }

/-- The effect of the submitted bulk mutation on one variant: the
productVariantsBulkUpdate line sets the remote variant price to the
payload value, whatever the current price is. -/
def applyVariantPrice (entry : PayloadVariant) (_currentPrice : ℚ) : ℚ :=
  entry.price

/-- The shared submission tail of both start functions (steps after the
operation row is created): submit the job, handle userErrors, handle a
missing id, or store the remote id and move to RUNNING. Thrown errors
are caught by the enclosing catch, which re-marks the row FAILED with
the thrown message before re-raising. -/
def submitAndTrack (remote : RemoteOracle) (now : Nat)
    (stagedPath : String) (operationRecord : OperationRecord)
    (db : List OperationRecord) :
    Except String OperationRecord × List OperationRecord :=
  match remote.submit stagedPath with
  | .failure msg =>
    let db := updateOperation now
      { id := operationRecord.id, status := some .FAILED,
        errorMessage := some msg } db
    (.error msg, db)
  | .response userErrors bulkOperationId =>
    if userErrors ≠ [] then
      let message := String.intercalate "\n" userErrors
      let db := updateOperation now
        { id := operationRecord.id, status := some .FAILED,
          errorMessage := some message } db
      let thrown := if message = "" then "Failed to start bulk operation." else message
      let db := updateOperation now
        { id := operationRecord.id, status := some .FAILED,
          errorMessage := some thrown } db
      (.error thrown, db)
    else
      match bulkOperationId with
      | none =>
        let msg := "Shopify did not return a bulk operation id."
        let db := updateOperation now
          { id := operationRecord.id, status := some .FAILED,
            errorMessage := some msg } db
        let db := updateOperation now
          { id := operationRecord.id, status := some .FAILED,
            errorMessage := some msg } db
        (.error msg, db)
      | some bid =>
        let db := updateOperation now
          { id := operationRecord.id, status := some .RUNNING,
            bulkOperationId := some bid } db
        match findOperationById operationRecord.id db with
        | some updated => (.ok updated, db)
        | none => (.error "Operation not found", db)

/-- startPriceAdjustmentBulkOperation from the current bulk-operations
service: cleanup sweep, admission check, empty-preview check, staged
upload, row creation with forward and inverse payloads, then
submission. -/
def startPriceAdjustmentBulkOperation (remote : RemoteOracle) (now : Nat)
    (newId : String) (shop : String) (preview : PricePreviewResult)
    (db : List OperationRecord) :
    Except String OperationRecord × List OperationRecord :=
  let db := cleanupStuckOperations remote.poll now shop db
  match findActiveOperationForShop shop db with
  | some _ => (.error "A bulk operation is already in progress for this shop.", db)
  | none =>
    if preview.products = [] then
      (.error "Cannot start bulk operation without products.", db)
    else
      match remote.upload with
      | .failure msg => (.error msg, db)
      | .ok stagedPath =>
        let payload := buildForwardPricePayload preview
        let inversePayload := buildInversePricePayload preview
        let created := createOperation now newId shop .PRICE_ADJUSTMENT
          (.price payload) (some (.price inversePayload)) db
        submitAndTrack remote now stagedPath created.1 created.2

/-- A product of a tag preview. The tag preview types are not among the
sources (the products service in the sources predates tag support);
fields follow their uses in startTagUpdateBulkOperation and the spec's
TagUpdate data model. -/
structure TagPreviewProduct where
  id : String
  title : String
  status : String := ""
  tags : List String := []
  tagsBefore : List String
  tagsAfter : List String
deriving DecidableEq, Repr

/-- A tag-update preview, following its uses in
startTagUpdateBulkOperation. -/
structure TagPreviewResult where
  update : TagUpdateSpec
  products : List TagPreviewProduct
deriving DecidableEq, Repr

/-- The forward payload built by startTagUpdateBulkOperation. -/
def buildForwardTagPayload (preview : TagPreviewResult) : TagUpdatePayload :=
  { update := preview.update
    products := preview.products.map fun product =>
      { id := product.id
        title := some product.title
        tagsBefore := product.tagsBefore
        tagsAfter := product.tagsAfter } }

/-- The inverse payload built by startTagUpdateBulkOperation: replace
with the flattened before-sets and swap before/after per product. -/
def buildInverseTagPayload (preview : TagPreviewResult) : TagUpdatePayload :=
  { update :=
      { action := .replace
        tags := []
        replaceTags := some ((preview.products.map (·.tagsBefore)).flatten) }
    products := preview.products.map fun product =>
      { id := product.id
        title := some product.title
        tagsBefore := product.tagsAfter
        tagsAfter := product.tagsBefore } }

/-- startTagUpdateBulkOperation from the current bulk-operations
service: same flow as the price variant, with tag payloads. -/
def startTagUpdateBulkOperation (remote : RemoteOracle) (now : Nat)
    (newId : String) (shop : String) (preview : TagPreviewResult)
    (db : List OperationRecord) :
    Except String OperationRecord × List OperationRecord :=
  let db := cleanupStuckOperations remote.poll now shop db
  match findActiveOperationForShop shop db with
  | some _ => (.error "A bulk operation is already in progress for this shop.", db)
  | none =>
    if preview.products = [] then
      (.error "Cannot start bulk operation without products.", db)
    else
      match remote.upload with
      | .failure msg => (.error msg, db)
      | .ok stagedPath =>
        let payload := buildForwardTagPayload preview
        let inversePayload := buildInverseTagPayload preview
        let created := createOperation now newId shop .TAG_UPDATE
          (.tag payload) (some (.tag inversePayload)) db
        submitAndTrack remote now stagedPath created.1 created.2

/-! ## undoOperation -/

/-- The preview reconstructed by undoOperation from a stored inverse
price payload: no re-fetch, the stored price becomes both before and
after. -/
def previewFromInversePayload (inversePayload : PriceAdjustmentPayload) :
    PricePreviewResult :=
  { adjustment := inversePayload.adjustment
    products := inversePayload.products.map fun product =>
      { id := product.id
        title := product.title.getD ""
        status := ""
        tags := []
        variants := product.variants.map fun variant =>
          { id := variant.id
            title := ""
            priceBefore := variant.price
            priceAfter := variant.price
            currencyCode := "" } } }

/-- The tag preview reconstructed by undoOperation from a stored inverse
tag payload (the tagPreview value actually passed on). -/
def tagPreviewFromInversePayload (inversePayload : TagUpdatePayload) :
    TagPreviewResult :=
  { update := inversePayload.update
    products := inversePayload.products.map fun product =>
      { id := product.id
        title := product.title.getD ""
        status := ""
        tags := []
        tagsBefore := product.tagsBefore
        tagsAfter := product.tagsAfter } }

/-- undoOperation from the current bulk-operations service: eligibility
checks (found, COMPLETED, inverse payload present, supported type), then
a fresh start from the reconstructed preview, then flagging the original
row. A row whose payload variant does not match its type cannot be
produced by this service; such a row falls to the unsupported-type
error. -/
def undoOperation (remote : RemoteOracle) (now : Nat) (newId : String)
    (shop : String) (operationId : String) (db : List OperationRecord) :
    Except String OperationRecord × List OperationRecord :=
  match findOperationById operationId db with
  | none => (.error "Operation not found", db)
  | some operation =>
    if operation.status ≠ .COMPLETED then
      (.error "Can only undo completed operations", db)
    else
      match operation.inversePayload with
      | none => (.error "Operation does not support undo", db)
      | some storedInverse =>
        match operation.type, storedInverse with
        | .PRICE_ADJUSTMENT, .price inversePayload =>
          let preview := previewFromInversePayload inversePayload
          match startPriceAdjustmentBulkOperation remote now newId shop preview db with
          | (.error e, db) => (.error e, db)
          | (.ok result, db) =>
            let db := updateOperation now
              { id := operationId
                undone := some true
                undoneAt := some now
                undoneByOperationId := some result.id } db
            (.ok result, db)
        | .TAG_UPDATE, .tag inversePayload =>
          let tagPreview := tagPreviewFromInversePayload inversePayload
          match startTagUpdateBulkOperation remote now newId shop tagPreview db with
          | (.error e, db) => (.error e, db)
          | (.ok result, db) =>
            let db := updateOperation now
              { id := operationId
                undone := some true
                undoneAt := some now
                undoneByOperationId := some result.id } db
            (.ok result, db)
        | _, _ => (.error "Undo not implemented for this operation type", db)

/-! ## graphql-retry.server.ts -/

/-- The cost/throttle-status envelope of a response, where present. -/
structure ThrottleStatusInfo where
  currentlyAvailable : ℚ
  maximumAvailable : ℚ
deriving DecidableEq, Repr

/-- Outcome of one attempt inside graphqlWithRetry: a JSON response
(whose error list may carry the THROTTLED code, and which may carry a
cost envelope), or a thrown network error. -/
inductive AttemptOutcome
  | response (throttled : Bool) (cost : Option ThrottleStatusInfo)
  | netError (msg : String)

/-- RetryOptions with the DEFAULT_OPTIONS values. -/
structure RetryConfig where
  maxRetries : Nat := 3
  initialDelay : ℚ := 1000
  maxDelay : ℚ := 30000

/-- calculateBackoffDelay from graphql-retry.server.ts. Math.random is
modelled by the jitter sample j with 0 ≤ j < 1. -/
def calculateBackoffDelay (attempt : Nat) (initialDelay maxDelay : ℚ)
    (j : ℚ) : ℤ :=
  let exponentialDelay := initialDelay * 2 ^ (attempt - 1)
  let jitter := j * (3 / 10) * exponentialDelay
  ⌊min (exponentialDelay + jitter) maxDelay⌋

/-- What a run of graphqlWithRetry did: the returned response (throttled
flag and cost envelope) or the propagated error, the backoff delays
slept in order, and the proactive low-budget wait taken before
returning, if any. -/
structure RetryTrace where
  result : Except String (Bool × Option ThrottleStatusInfo)
  delays : List ℤ
  postWait : Option ℚ
deriving Repr

/-- The while-loop of graphqlWithRetry. outcomes i is the outcome of the
i-th call (0-based; the loop makes call i with its attempt counter equal
to i), jitters a is the Math.random sample of the a-th backoff. The fuel
argument equals maxRetries + 1 - attempt on every call, so the loop
condition attempt ≤ maxRetries never fails and the trailing
"Max retries exceeded" throw is unreachable. -/
def graphqlWithRetryGo (outcomes : Nat → AttemptOutcome)
    (jitters : Nat → ℚ) (maxRetries : Nat) (initialDelay maxDelay : ℚ) :
    Nat → Nat → RetryTrace
  | 0, _ => { result := .error "Max retries exceeded", delays := [], postWait := none }
  | fuel + 1, attempt =>
    match outcomes attempt with
    | .response throttled cost =>
      if throttled ∧ attempt < maxRetries then
        let a := attempt + 1
        let d := calculateBackoffDelay a initialDelay maxDelay (jitters a)
        let t := graphqlWithRetryGo outcomes jitters maxRetries initialDelay
          maxDelay fuel a
        { t with delays := d :: t.delays }
      else
        { result := .ok (throttled, cost)
          delays := []
          postWait :=
            match cost with
            | some c => if c.currentlyAvailable < 100 then some 2000 else none
            | none => none }
    | .netError msg =>
      if maxRetries ≤ attempt then
        { result := .error msg, delays := [], postWait := none }
      else
        let a := attempt + 1
        let d := calculateBackoffDelay a initialDelay maxDelay (jitters a)
        let t := graphqlWithRetryGo outcomes jitters maxRetries initialDelay
          maxDelay fuel a
        { t with delays := d :: t.delays }

/-- graphqlWithRetry from graphql-retry.server.ts, as the trace of its
loop started at attempt 0. -/
def graphqlWithRetry (outcomes : Nat → AttemptOutcome)
    (jitters : Nat → ℚ) (cfg : RetryConfig) : RetryTrace :=
  graphqlWithRetryGo outcomes jitters cfg.maxRetries cfg.initialDelay
    cfg.maxDelay (cfg.maxRetries + 1) 0

/-! ## Concrete sample values used by witnesses and counterexamples -/

/-- A one-row sample database entry in RUNNING. -/
def sampleRow : OperationRecord :=
  { id := "op1", shop := "s1", type := .PRICE_ADJUSTMENT,
    status := .RUNNING, createdAt := 0 }

/-- A sample stored inverse payload: one product, one variant, price
restored to 10. -/
def inverseSample : PriceAdjustmentPayload :=
  { adjustment := { direction := .decrease, percentage := 10 }
    products := [{ id := "p1", title := some "T",
                   variants := [{ id := "v1", price := 10 }] }] }

/-- A COMPLETED, already-undone operation row carrying an inverse
payload. -/
def undoneRow : OperationRecord :=
  { id := "op1", shop := "s1", type := .PRICE_ADJUSTMENT,
    status := .COMPLETED, payload := some (.price inverseSample),
    inversePayload := some (.price inverseSample), undone := true,
    undoneAt := some 1, undoneByOperationId := some "op0", createdAt := 0 }

/-- A remote that accepts everything: uploads succeed and submission
returns a job id with no user errors. -/
def okRemote : RemoteOracle :=
  { poll := fun _ => .ok none
    upload := .ok "key1"
    submit := fun _ => .response [] (some "gid1")
    fetchResults := fun _ => .ok [] }

/-- A sample price preview with one product and one variant. -/
def pricePreviewSample : PricePreviewResult :=
  { adjustment := { direction := .increase, percentage := 10 }
    products := [{ id := "p1", title := "T", status := "ACTIVE", tags := [],
                   variants := [{ id := "v1", title := "V",
                                  priceBefore := 20, priceAfter := 22,
                                  currencyCode := "USD" }] }] }

/-- A sample tag preview with one product. -/
def tagPreviewSample : TagPreviewResult :=
  { update := { action := .add, tags := ["sale"] }
    products := [{ id := "p1", title := "T", tagsBefore := ["a"],
                   tagsAfter := ["a", "sale"] }] }

/-! ## Helper lemmas on the preview math -/

theorem round2_nonneg {q : ℚ} (h : 0 ≤ q) : 0 ≤ round2 q := by
  unfold round2
  have hfloor : (0 : ℤ) ≤ ⌊q * 100 + 1 / 2⌋ := by
    apply Int.le_floor.2
    push_cast
    nlinarith
  positivity

theorem round2_zero : round2 0 = 0 := by
  norm_num [round2]

theorem clampPrice_nonneg (a : ℚ) : 0 ≤ clampPrice a :=
  round2_nonneg (le_max_right a 0)

theorem clampPrice_of_nonneg {a : ℚ} (h : 0 ≤ a) : clampPrice a = round2 a := by
  unfold clampPrice
  rw [max_eq_left h]

theorem calculateMultiplier_increase (p : ℚ) (hp : 0 < p) :
    calculateMultiplier ⟨.increase, p⟩ = 1 + p / 100 := by
  unfold calculateMultiplier
  simp only
  rw [if_neg]
  push_neg
  nlinarith

theorem calculateMultiplier_decrease (p : ℚ) :
    calculateMultiplier ⟨.decrease, p⟩ = max 0 (1 - p / 100) := by
  unfold calculateMultiplier
  simp only
  rcases lt_or_le (1 - p / 100) 0 with h | h
  · rw [if_pos h, max_eq_left h.le]
  · rw [if_neg (not_lt.2 h), max_eq_right h]

/-! ## C6: price preview formula -/

/-- C6. For every nonnegative price x and percentage 0 < p ≤ 1000, the
preview after-value is round2(x * (1 + p/100)) for increase and
round2(x * max(0, 1 - p/100)) for decrease; for decrease the result is
never negative and at p = 1000 it is exactly 0. -/
theorem preview_price_formula (x p : ℚ) (hx : 0 ≤ x) (hp : 0 < p)
    (_hple : p ≤ 1000) :
    previewPriceAfter x ⟨.increase, p⟩ = round2 (x * (1 + p / 100))
  ∧ previewPriceAfter x ⟨.decrease, p⟩ = round2 (x * max 0 (1 - p / 100))
  ∧ 0 ≤ previewPriceAfter x ⟨.decrease, p⟩
  ∧ previewPriceAfter x ⟨.decrease, 1000⟩ = 0 := by
  refine ⟨?_, ?_, ?_, ?_⟩
  · unfold previewPriceAfter
    rw [calculateMultiplier_increase p hp]
    exact clampPrice_of_nonneg (by nlinarith)
  · unfold previewPriceAfter
    rw [calculateMultiplier_decrease p]
    exact clampPrice_of_nonneg (mul_nonneg hx (le_max_left 0 _))
  · exact clampPrice_nonneg _
  · unfold previewPriceAfter
    rw [calculateMultiplier_decrease 1000]
    norm_num
    exact round2_zero

/-- C6 witness: the formula at x = 20, p = 10 (a 10 percent increase of
20.00 previews to 22.00). -/
theorem preview_price_formula_witness :
    (0 : ℚ) ≤ 20 ∧ (0 : ℚ) < 10 ∧ (10 : ℚ) ≤ 1000
  ∧ (previewPriceAfter 20 ⟨.increase, 10⟩ = round2 (20 * (1 + 10 / 100))
  ∧ previewPriceAfter 20 ⟨.decrease, 10⟩ = round2 (20 * max 0 (1 - 10 / 100))
  ∧ 0 ≤ previewPriceAfter 20 ⟨.decrease, 10⟩
  ∧ previewPriceAfter 20 ⟨.decrease, 1000⟩ = 0) :=
  ⟨by norm_num, by norm_num, by norm_num,
    preview_price_formula 20 10 (by norm_num) (by norm_num) (by norm_num)⟩

/-! ## C10: parseCurrencyAmount totality -/

/-- C10. parseCurrencyAmount never yields NaN: missing or unparsable
input yields 0; consequently the NaN guard in the preview variant
mapping never drops a variant, and a variant with a missing price string
previews as 0 before and 0 after. -/
theorem parseCurrencyAmount_never_nan (parseFloat : String → JsNumber)
    (adjustment : PriceAdjustment) (currencyCode : String) :
    (∀ amount, parseCurrencyAmount parseFloat amount ≠ .nan)
  ∧ parseCurrencyAmount parseFloat none = .val 0
  ∧ parseCurrencyAmount parseFloat (some "") = .val 0
  ∧ (∀ s, parseFloat s = .nan → parseCurrencyAmount parseFloat (some s) = .val 0)
  ∧ (∀ v : SourceVariant,
      (buildPreviewVariant parseFloat adjustment currencyCode v).isSome)
  ∧ (∀ v : SourceVariant, v.price = none →
      buildPreviewVariant parseFloat adjustment currencyCode v =
        some { id := v.id, title := v.title, priceBefore := 0,
               priceAfter := 0, currencyCode := currencyCode }) := by
  have hnever : ∀ amount, parseCurrencyAmount parseFloat amount ≠ .nan := by
    intro amount
    unfold parseCurrencyAmount
    rcases amount with _ | s
    · simp
    · by_cases hs : s = ""
      · simp [hs]
      · simp only [if_neg hs]
        cases parseFloat s <;> simp [hs]
  have hafter0 : previewPriceAfter 0 adjustment = 0 := by
    unfold previewPriceAfter
    rw [zero_mul]
    unfold clampPrice
    rw [max_self]
    exact round2_zero
  refine ⟨hnever, rfl, by simp [parseCurrencyAmount], ?_, ?_, ?_⟩
  · intro s hs
    simp [parseCurrencyAmount, hs]
  · intro v
    unfold buildPreviewVariant
    rcases h : parseCurrencyAmount parseFloat v.price with _ | q
    · exact absurd h (hnever v.price)
    · simp
  · intro v hv
    unfold buildPreviewVariant
    rw [hv]
    simp only [parseCurrencyAmount]
    simp [hafter0]

/-- C10 witness: with a parseFloat oracle that always yields NaN and a
price-less variant, nothing is dropped and the preview is 0 to 0. -/
theorem parseCurrencyAmount_never_nan_witness :
    (fun _ : String => JsNumber.nan) "1x" = .nan
  ∧ parseCurrencyAmount (fun _ => JsNumber.nan) (some "1x") = .val 0
  ∧ (buildPreviewVariant (fun _ => JsNumber.nan) ⟨.increase, 10⟩ "USD"
      { id := "v1", title := "T", price := none }).isSome
  ∧ buildPreviewVariant (fun _ => JsNumber.nan) ⟨.increase, 10⟩ "USD"
      { id := "v1", title := "T", price := none } =
      some { id := "v1", title := "T", priceBefore := 0, priceAfter := 0,
             currencyCode := "USD" } :=
  ⟨rfl,
    (parseCurrencyAmount_never_nan (fun _ => JsNumber.nan) ⟨.increase, 10⟩
      "USD").2.2.2.1 "1x" rfl,
    (parseCurrencyAmount_never_nan (fun _ => JsNumber.nan) ⟨.increase, 10⟩
      "USD").2.2.2.2.1 _,
    (parseCurrencyAmount_never_nan (fun _ => JsNumber.nan) ⟨.increase, 10⟩
      "USD").2.2.2.2.2 _ rfl⟩

/-! ### C3: pollBulkOperationStatus is total -/

/-- C3. Polling is total for the caller: a missing remote node yields a
synthesized EXPIRED result (code NOT_FOUND) and a transport failure
yields a synthesized FAILED result with the generic POLL_ERROR code;
neither raises (the embedding is a plain total function). -/
theorem pollStatus_never_raises (poll : String → PollNetOutcome)
    (now : Nat) (bulkOperationId : String) :
    (poll bulkOperationId = .ok none →
      pollBulkOperationStatus poll now bulkOperationId =
        { id := bulkOperationId, status := .EXPIRED,
          errorCode := some "NOT_FOUND", createdAt := now,
          completedAt := some now })
  ∧ (poll bulkOperationId = .failure →
      (pollBulkOperationStatus poll now bulkOperationId).status = .FAILED
      ∧ (pollBulkOperationStatus poll now bulkOperationId).errorCode =
          some "POLL_ERROR") := by
  constructor
  · intro h
    simp [pollBulkOperationStatus, h]
  · intro h
    simp [pollBulkOperationStatus, h]

/-- C3 witness: a remote that drops the job and a remote that always
fails, both polled for a concrete id. -/
theorem pollStatus_never_raises_witness :
    ((fun _ : String => PollNetOutcome.ok none) "gid1" = .ok none
  ∧ pollBulkOperationStatus (fun _ => PollNetOutcome.ok none) 7 "gid1" =
      { id := "gid1", status := .EXPIRED, errorCode := some "NOT_FOUND",
        createdAt := 7, completedAt := some 7 })
  ∧ ((fun _ : String => PollNetOutcome.failure) "gid1" = .failure
  ∧ (pollBulkOperationStatus (fun _ => PollNetOutcome.failure) 7 "gid1").status = .FAILED
  ∧ (pollBulkOperationStatus (fun _ => PollNetOutcome.failure) 7 "gid1").errorCode =
      some "POLL_ERROR") :=
  ⟨⟨rfl, (pollStatus_never_raises (fun _ => PollNetOutcome.ok none) 7 "gid1").1 rfl⟩,
    ⟨rfl, (pollStatus_never_raises (fun _ => PollNetOutcome.failure) 7 "gid1").2 rfl⟩⟩

/-! ### C4: exact line accounting of the result parser -/

theorem processLine_successful_add_failed (acc : BulkOperationResults)
    (line : JsonLine) :
    (processLine acc line).successful + (processLine acc line).failed
      = acc.successful + acc.failed + (if isWellFormed line then 1 else 0) := by
  rcases line with _ | ⟨ue, nue, pid⟩
  · simp [processLine, isWellFormed]
  · simp only [processLine, isWellFormed, if_true]
    by_cases hue : ue = []
    · simp only [hue]
      by_cases hnue : nue = [] <;> simp [hnue] <;> omega
    · simp [hue]
      omega

theorem processLine_errors (acc : BulkOperationResults) (line : JsonLine) :
    (processLine acc line).errors = acc.errors ++ lineEntries line := by
  rcases line with _ | ⟨ue, nue, pid⟩
  · simp [processLine, lineEntries]
  · simp only [processLine, lineEntries]
    by_cases hue : ue = []
    · simp only [hue]
      by_cases hnue : nue = [] <;> simp [hnue]
    · simp [hue]

theorem processResults_go (lines : List JsonLine) (acc : BulkOperationResults) :
    ((lines.foldl processLine acc).successful
        + (lines.foldl processLine acc).failed
      = acc.successful + acc.failed + lines.countP isWellFormed)
  ∧ (lines.foldl processLine acc).errors = acc.errors ++ lines.flatMap lineEntries := by
  induction lines generalizing acc with
  | nil => simp
  | cons line rest ih =>
    rcases ih (processLine acc line) with ⟨ih1, ih2⟩
    constructor
    · rw [List.foldl_cons, ih1, processLine_successful_add_failed,
        List.countP_cons]
      rcases h : isWellFormed line
      · simp [h]
      · simp [h]
        omega
    · rw [List.foldl_cons, ih2, processLine_errors, List.flatMap_cons,
        List.append_assoc]

/-- C4. Exact line accounting: successful + failed equals the number of
well-formed lines (each well-formed line bumps exactly one of the two
counters, per processLine_successful_add_failed folded over the input),
and the errors list is exactly the concatenation of each line's
contribution, a malformed line contributing exactly the one generic
parse-failure entry. -/
theorem processResults_line_accurate (lines : List JsonLine) :
    ((processBulkOperationResults lines).successful
        + (processBulkOperationResults lines).failed
      = lines.countP isWellFormed)
  ∧ (processBulkOperationResults lines).errors = lines.flatMap lineEntries
  ∧ lineEntries .malformed =
      [{ productId := none, variantId := none,
         message := "Failed to parse result line", field := none }]
  ∧ (∀ acc line,
      (processLine acc line).successful + (processLine acc line).failed
        = acc.successful + acc.failed + (if isWellFormed line then 1 else 0)) := by
  rcases processResults_go lines { successful := 0, failed := 0, errors := [] }
    with ⟨h1, h2⟩
  exact ⟨by simpa using h1, by simpa using h2, rfl,
    processLine_successful_add_failed⟩

/-! ## Database helper lemmas -/

theorem applyUpdate_id (now : Nat) (u : UpdateOperationInput)
    (op : OperationRecord) : (applyUpdate now u op).id = op.id := rfl

theorem updateOperation_map_id (now : Nat) (u : UpdateOperationInput)
    (db : List OperationRecord) :
    (updateOperation now u db).map (·.id) = db.map (·.id) := by
  unfold updateOperation
  rw [List.map_map]
  congr 1
  funext op
  simp only [Function.comp]
  split <;> rfl

theorem findOperationById_updateOperation (now : Nat)
    (u : UpdateOperationInput) (db : List OperationRecord) (id : String) :
    findOperationById id (updateOperation now u db)
      = (findOperationById id db).map
          (fun r => if r.id = u.id then applyUpdate now u r else r) := by
  unfold findOperationById updateOperation
  rw [List.find?_map]
  congr 1
  congr 1
  funext op
  simp only [Function.comp]
  split <;> rfl

theorem findOperationById_id {id : String} {db : List OperationRecord}
    {rec : OperationRecord} (h : findOperationById id db = some rec) :
    rec.id = id := by
  have := List.find?_some h
  simpa using this

/-! ## completeUpdates facts -/

theorem completeUpdates_idField (fetchResults : String → FetchOutcome)
    (now : Nat) (operationId : String) (r : BulkOperationPollResult) :
    (completeUpdates fetchResults now operationId r).id = operationId := by
  simp only [completeUpdates]
  split
  · rfl
  · split <;> rfl

theorem completeUpdates_status_isSome (fetchResults : String → FetchOutcome)
    (now : Nat) (operationId : String) (r : BulkOperationPollResult) :
    ∃ s, (completeUpdates fetchResults now operationId r).status = some s := by
  simp only [completeUpdates]
  split
  · exact ⟨_, rfl⟩
  · split <;> exact ⟨_, rfl⟩

theorem completeUpdates_now_invariant (fetchResults : String → FetchOutcome)
    (now1 now2 : Nat) (operationId : String) (r : BulkOperationPollResult) :
    (completeUpdates fetchResults now1 operationId r).status
        = (completeUpdates fetchResults now2 operationId r).status
    ∧ (completeUpdates fetchResults now1 operationId r).results
        = (completeUpdates fetchResults now2 operationId r).results := by
  constructor
  · simp only [completeUpdates]
    split_ifs <;> rfl
  · simp only [completeUpdates]
    split_ifs <;> rfl

/-- The row written back by completeBulkOperation, given the row found
for the operation id. -/
theorem completeBulkOperation_row (fetchResults : String → FetchOutcome)
    (now : Nat) (operationId : String) (r : BulkOperationPollResult)
    (db : List OperationRecord) (rec : OperationRecord)
    (hrec : findOperationById operationId db = some rec) :
    (completeBulkOperation fetchResults now operationId r db).2
      = some (applyUpdate now (completeUpdates fetchResults now operationId r) rec) := by
  have hproj : (completeBulkOperation fetchResults now operationId r db).2
      = findOperationById operationId
          (updateOperation now (completeUpdates fetchResults now operationId r) db) := rfl
  rw [hproj]
  rw [findOperationById_updateOperation, hrec]
  have hmap : ∀ (f : OperationRecord → OperationRecord),
      (some rec).map f = some (f rec) := fun _ => rfl
  rw [hmap]
  rw [if_pos (show rec.id = (completeUpdates fetchResults now operationId r).id by
    rw [findOperationById_id hrec, completeUpdates_idField])]

/-! ## C2: terminal-status mapping of completeBulkOperation -/

/-- C2 counterexample: a poll result with remote status COMPLETED that
carries the error code NOT_FOUND is finalized as EXPIRED, not FAILED, so
an error code does not always force FAILED. -/
theorem completeStatus_notFound_overrides_failed :
    ((completeBulkOperation (fun _ => FetchOutcome.failure) 9 "op1"
        { id := "gid1", status := .COMPLETED, errorCode := some "NOT_FOUND",
          createdAt := 0, completedAt := some 5 }
        [{ id := "op1", shop := "s1", type := .PRICE_ADJUSTMENT,
           status := .RUNNING, createdAt := 0 }]).2.map (·.status)
      = some .EXPIRED)
  ∧ some OperationStatus.EXPIRED ≠ some OperationStatus.FAILED := by
  constructor
  · rfl
  · intro h
    simp at h

/-- C2 as amended: the status mapping of completeBulkOperation. COMPLETED
with no error code finalizes COMPLETED; remote status EXPIRED or error
code NOT_FOUND finalizes EXPIRED with the explanatory message, taking
precedence over the error-code override; any other remote status
finalizes FAILED; and a non-empty error code other than NOT_FOUND, when
the remote status is not EXPIRED, forces FAILED with the code recorded
as the error message, overriding a COMPLETED mapping. -/
theorem completeStatus_mapping (fetchResults : String → FetchOutcome)
    (now : Nat) (operationId : String) (r : BulkOperationPollResult)
    (db : List OperationRecord) (rec : OperationRecord)
    (hrec : findOperationById operationId db = some rec) :
    ((completeBulkOperation fetchResults now operationId r db).2
      = some (applyUpdate now (completeUpdates fetchResults now operationId r) rec))
  ∧ (r.status = .COMPLETED → r.errorCode = none →
      (applyUpdate now (completeUpdates fetchResults now operationId r) rec).status
        = .COMPLETED)
  ∧ ((r.status = .EXPIRED ∨ r.errorCode = some "NOT_FOUND") →
      (applyUpdate now (completeUpdates fetchResults now operationId r) rec).status
          = .EXPIRED
      ∧ (applyUpdate now (completeUpdates fetchResults now operationId r) rec).errorMessage
          = some expiredMessage)
  ∧ (r.status ≠ .COMPLETED → r.status ≠ .EXPIRED → r.errorCode ≠ some "NOT_FOUND" →
      (applyUpdate now (completeUpdates fetchResults now operationId r) rec).status
        = .FAILED)
  ∧ (∀ code, r.errorCode = some code → code ≠ "" → code ≠ "NOT_FOUND" →
      r.status ≠ .EXPIRED →
      (applyUpdate now (completeUpdates fetchResults now operationId r) rec).status
          = .FAILED
      ∧ (applyUpdate now (completeUpdates fetchResults now operationId r) rec).errorMessage
          = some code) := by
  refine ⟨completeBulkOperation_row fetchResults now operationId r db rec hrec,
    ?_, ?_, ?_, ?_⟩
  · intro h1 h2
    simp [completeUpdates, applyUpdate, h1, h2, strTruthy]
  · intro h
    simp [completeUpdates, applyUpdate, if_pos h]
  · intro h1 h2 h3
    have hnot : ¬(r.status = .EXPIRED ∨ r.errorCode = some "NOT_FOUND") := by
      rintro (h | h)
      · exact h2 h
      · exact h3 h
    by_cases hfail : (strTruthy r.errorCode = true ∨ r.status = .FAILED)
    · simp only [completeUpdates, if_neg hnot, if_pos hfail, applyUpdate]
      simp
    · simp only [completeUpdates, if_neg hnot, if_neg hfail, applyUpdate]
      simp only [Option.getD_some]
      rw [if_neg h1, if_neg h2]
  · intro code hcode hne hnf hnexp
    have hnot : ¬(r.status = .EXPIRED ∨ r.errorCode = some "NOT_FOUND") := by
      rintro (h | h)
      · exact hnexp h
      · rw [hcode] at h
        exact hnf (by injection h)
    have htruthy : strTruthy r.errorCode = true := by
      rw [hcode]
      simpa [strTruthy] using hne
    constructor
    · simp only [completeUpdates, if_neg hnot, applyUpdate]
      rw [if_pos (Or.inl htruthy)]
      simp
    · simp only [completeUpdates, if_neg hnot, applyUpdate]
      rw [if_pos (Or.inl htruthy)]
      simp [hcode, hne]

/-- C2 amended witness: the four mapping cases at concrete poll results
against a one-row database. -/
theorem completeStatus_mapping_witness :
    ((applyUpdate 9 (completeUpdates (fun _ => FetchOutcome.failure) 9 "op1"
        { id := "g", status := .COMPLETED, createdAt := 0 })
        sampleRow).status = .COMPLETED)
  ∧ ((applyUpdate 9 (completeUpdates (fun _ => FetchOutcome.failure) 9 "op1"
        { id := "g", status := .EXPIRED, createdAt := 0 })
        sampleRow).status = .EXPIRED)
  ∧ ((applyUpdate 9 (completeUpdates (fun _ => FetchOutcome.failure) 9 "op1"
        { id := "g", status := .CANCELED, createdAt := 0 })
        sampleRow).status = .FAILED)
  ∧ ((applyUpdate 9 (completeUpdates (fun _ => FetchOutcome.failure) 9 "op1"
        { id := "g", status := .COMPLETED, errorCode := some "ACCESS_DENIED",
          createdAt := 0 })
        sampleRow).status = .FAILED
    ∧ (applyUpdate 9 (completeUpdates (fun _ => FetchOutcome.failure) 9 "op1"
        { id := "g", status := .COMPLETED, errorCode := some "ACCESS_DENIED",
          createdAt := 0 })
        sampleRow).errorMessage = some "ACCESS_DENIED") :=
  ⟨(completeStatus_mapping (fun _ => FetchOutcome.failure) 9 "op1"
      { id := "g", status := .COMPLETED, createdAt := 0 }
      [sampleRow] sampleRow rfl).2.1 rfl rfl,
    ((completeStatus_mapping (fun _ => FetchOutcome.failure) 9 "op1"
      { id := "g", status := .EXPIRED, createdAt := 0 }
      [sampleRow] sampleRow rfl).2.2.1 (Or.inl rfl)).1,
    (completeStatus_mapping (fun _ => FetchOutcome.failure) 9 "op1"
      { id := "g", status := .CANCELED, createdAt := 0 }
      [sampleRow] sampleRow rfl).2.2.2.1 (by decide) (by decide) (by decide),
    (completeStatus_mapping (fun _ => FetchOutcome.failure) 9 "op1"
      { id := "g", status := .COMPLETED, errorCode := some "ACCESS_DENIED",
        createdAt := 0 }
      [sampleRow] sampleRow rfl).2.2.2.2 "ACCESS_DENIED" rfl
      (by decide) (by decide) (by decide)⟩

/-! ## C5: completeBulkOperation is idempotent -/

/-- C5. Completing the same operation twice with the same COMPLETED poll
result (against the same result-file contents) leaves the row with the
same status and the same result summary as completing it once. -/
theorem complete_idempotent (fetchResults : String → FetchOutcome)
    (now1 now2 : Nat) (operationId : String) (r : BulkOperationPollResult)
    (db : List OperationRecord) (rec1 rec2 : OperationRecord)
    (_hcompleted : r.status = .COMPLETED)
    (h1 : (completeBulkOperation fetchResults now1 operationId r db).2 = some rec1)
    (h2 : (completeBulkOperation fetchResults now2 operationId r
            (completeBulkOperation fetchResults now1 operationId r db).1).2 = some rec2) :
    rec2.status = rec1.status ∧ rec2.results = rec1.results := by
  have hdb1 : (completeBulkOperation fetchResults now1 operationId r db).1
      = updateOperation now1 (completeUpdates fetchResults now1 operationId r) db := rfl
  have hfind1 : (completeBulkOperation fetchResults now1 operationId r db).2
      = findOperationById operationId
          (completeBulkOperation fetchResults now1 operationId r db).1 := rfl
  have hrec1 : findOperationById operationId
      (completeBulkOperation fetchResults now1 operationId r db).1 = some rec1 := by
    rw [← hfind1]; exact h1
  have hrow2 := completeBulkOperation_row fetchResults now2 operationId r
    (completeBulkOperation fetchResults now1 operationId r db).1 rec1 hrec1
  have hrec2 : rec2 = applyUpdate now2
      (completeUpdates fetchResults now2 operationId r) rec1 := by
    rw [h2] at hrow2
    exact (Option.some.injEq _ _ ▸ hrow2 : _)
  rcases completeUpdates_now_invariant fetchResults now2 now1 operationId r
    with ⟨hstat, hres⟩
  rcases completeUpdates_status_isSome fetchResults now1 operationId r with ⟨s, hs⟩
  -- identify rec1 through the first write
  rcases hfind0 : findOperationById operationId db with _ | rec0
  · exfalso
    rw [hfind1, hdb1, findOperationById_updateOperation, hfind0] at h1
    simp at h1
  · have hrow1 := completeBulkOperation_row fetchResults now1 operationId r db rec0 hfind0
    have hrec1eq : rec1 = applyUpdate now1
        (completeUpdates fetchResults now1 operationId r) rec0 := by
      rw [h1] at hrow1
      exact (Option.some.injEq _ _ ▸ hrow1 : _)
    have h2status : rec2.status
        = (completeUpdates fetchResults now1 operationId r).status.getD rec1.status := by
      rw [hrec2]
      simp only [applyUpdate]
      rw [hstat]
    have h1status : rec1.status
        = (completeUpdates fetchResults now1 operationId r).status.getD rec0.status := by
      rw [hrec1eq]
      simp only [applyUpdate]
    have h2res : rec2.results
        = match (completeUpdates fetchResults now1 operationId r).results with
          | some v => some v
          | none => rec1.results := by
      rw [hrec2]
      simp only [applyUpdate]
      rw [hres]
    have h1res : rec1.results
        = match (completeUpdates fetchResults now1 operationId r).results with
          | some v => some v
          | none => rec0.results := by
      rw [hrec1eq]
      simp only [applyUpdate]
    constructor
    · rw [h2status, h1status, hs]
      rfl
    · rcases hr : (completeUpdates fetchResults now1 operationId r).results with _ | v
      · rw [hr] at h2res
        exact h2res
      · rw [hr] at h2res h1res
        rw [h2res, h1res]

/-- C5 witness: completing a one-row database twice with the same
COMPLETED poll result at concrete times 9 and 11; status and result
summary agree between the two writes. -/
theorem complete_idempotent_witness :
    ({ id := "g", status := .COMPLETED, url := some "u", createdAt := 0,
       completedAt := some 3 } : BulkOperationPollResult).status = .COMPLETED
  ∧ (completeBulkOperation (fun _ => FetchOutcome.ok []) 9 "op1"
      { id := "g", status := .COMPLETED, url := some "u", createdAt := 0,
        completedAt := some 3 } [sampleRow]).2
      = some { sampleRow with
                status := .COMPLETED
                results := some { successful := 0, failed := 0, errors := [] }
                updatedAt := some 9
                completedAt := some 3 }
  ∧ (completeBulkOperation (fun _ => FetchOutcome.ok []) 11 "op1"
      { id := "g", status := .COMPLETED, url := some "u", createdAt := 0,
        completedAt := some 3 }
      (completeBulkOperation (fun _ => FetchOutcome.ok []) 9 "op1"
        { id := "g", status := .COMPLETED, url := some "u", createdAt := 0,
          completedAt := some 3 } [sampleRow]).1).2
      = some { sampleRow with
                status := .COMPLETED
                results := some { successful := 0, failed := 0, errors := [] }
                updatedAt := some 11
                completedAt := some 3 }
  ∧ (({ sampleRow with
         status := .COMPLETED
         results := some { successful := 0, failed := 0, errors := [] }
         updatedAt := some 11
         completedAt := some 3 } : OperationRecord).status
      = ({ sampleRow with
           status := .COMPLETED
           results := some { successful := 0, failed := 0, errors := [] }
           updatedAt := some 9
           completedAt := some 3 } : OperationRecord).status
    ∧ ({ sampleRow with
         status := .COMPLETED
         results := some { successful := 0, failed := 0, errors := [] }
         updatedAt := some 11
         completedAt := some 3 } : OperationRecord).results
      = ({ sampleRow with
           status := .COMPLETED
           results := some { successful := 0, failed := 0, errors := [] }
           updatedAt := some 9
           completedAt := some 3 } : OperationRecord).results) :=
  ⟨rfl, by decide, by decide,
    complete_idempotent (fun _ => FetchOutcome.ok []) 9 11 "op1"
      { id := "g", status := .COMPLETED, url := some "u", createdAt := 0,
        completedAt := some 3 } [sampleRow] _ _ rfl (by decide) (by decide)⟩

/-! ## C1: one active operation per shop (admission control) -/

theorem mem_updateOperation_of_ne (now : Nat) (u : UpdateOperationInput)
    (db : List OperationRecord) (r : OperationRecord) (hr : r ∈ db)
    (hne : r.id ≠ u.id) : r ∈ updateOperation now u db := by
  unfold updateOperation
  exact List.mem_map.2 ⟨r, hr, by rw [if_neg hne]⟩

theorem mem_cleanup_foldl (poll : String → PollNetOutcome) (now : Nat)
    (st : List OperationRecord) (acc : List OperationRecord)
    (r : OperationRecord) (hr : r ∈ acc)
    (hne : ∀ s ∈ st, r.id ≠ s.id) :
    r ∈ st.foldl
      (fun acc op =>
        match op.bulkOperationId with
        | some bid =>
          let status := pollBulkOperationStatus poll now bid
          if status.status = .EXPIRED ∨ status.errorCode = some "NOT_FOUND" then
            updateOperation now
              { id := op.id
                status := some .EXPIRED
                completedAt := some now
                errorMessage := some
                  "Auto-expired: bulk operation not found in Shopify or timed out (>1 hour)" }
              acc
          else acc
        | none =>
          updateOperation now
            { id := op.id
              status := some .FAILED
              completedAt := some now
              errorMessage := some
                "Auto-failed: no bulk operation ID found after 1 hour" }
            acc)
      acc := by
  induction st generalizing acc with
  | nil => exact hr
  | cons s ss ih =>
    rw [List.foldl_cons]
    refine ih _ ?_ (fun x hx => hne x (List.mem_cons_of_mem s hx))
    have hrs : r.id ≠ s.id := hne s (List.mem_cons_self s ss)
    rcases hb : s.bulkOperationId with _ | bid
    · simp only [hb]
      exact mem_updateOperation_of_ne now _ acc r hr hrs
    · simp only [hb]
      split
      · exact mem_updateOperation_of_ne now _ acc r hr hrs
      · exact hr

theorem mem_cleanupStuckOperations (poll : String → PollNetOutcome)
    (now : Nat) (shop : String) (db : List OperationRecord)
    (r : OperationRecord) (hr : r ∈ db)
    (hne : ∀ s ∈ findStuckOperations now shop db, r.id ≠ s.id) :
    r ∈ cleanupStuckOperations poll now shop db :=
  mem_cleanup_foldl poll now (findStuckOperations now shop db) db r hr hne

theorem cleanup_foldl_map_id (poll : String → PollNetOutcome) (now : Nat)
    (st : List OperationRecord) (acc : List OperationRecord) :
    (st.foldl
      (fun acc op =>
        match op.bulkOperationId with
        | some bid =>
          let status := pollBulkOperationStatus poll now bid
          if status.status = .EXPIRED ∨ status.errorCode = some "NOT_FOUND" then
            updateOperation now
              { id := op.id
                status := some .EXPIRED
                completedAt := some now
                errorMessage := some
                  "Auto-expired: bulk operation not found in Shopify or timed out (>1 hour)" }
              acc
          else acc
        | none =>
          updateOperation now
            { id := op.id
              status := some .FAILED
              completedAt := some now
              errorMessage := some
                "Auto-failed: no bulk operation ID found after 1 hour" }
            acc)
      acc).map (·.id) = acc.map (·.id) := by
  induction st generalizing acc with
  | nil => rfl
  | cons s ss ih =>
    rw [List.foldl_cons]
    rw [ih]
    rcases hb : s.bulkOperationId with _ | bid
    · simp only [hb]
      exact updateOperation_map_id now _ acc
    · simp only [hb]
      split
      · exact updateOperation_map_id now _ acc
      · rfl

theorem cleanupStuckOperations_map_id (poll : String → PollNetOutcome)
    (now : Nat) (shop : String) (db : List OperationRecord) :
    (cleanupStuckOperations poll now shop db).map (·.id) = db.map (·.id) :=
  cleanup_foldl_map_id poll now (findStuckOperations now shop db) db

/-- C1. While a shop has an operation in CREATED or RUNNING that is not
older than the staleness window (so the opportunistic sweep cannot have
resolved it to a terminal state), starting a new bulk job for that shop,
of either transformation kind, fails with the in-progress conflict error
and creates no new operation row (the row ids are unchanged). -/
theorem startJob_conflict (remote : RemoteOracle) (now : Nat)
    (newId : String) (shop : String) (pricePreview : PricePreviewResult)
    (tagPreview : TagPreviewResult) (db : List OperationRecord)
    (hnodup : (db.map OperationRecord.id).Nodup)
    (hactive : ∃ op ∈ db, op.shop = shop ∧ isActiveStatus op.status = true
        ∧ ¬(op.createdAt + staleWindowMs < now)) :
    ((startPriceAdjustmentBulkOperation remote now newId shop pricePreview db).1
        = .error "A bulk operation is already in progress for this shop."
      ∧ (startPriceAdjustmentBulkOperation remote now newId shop pricePreview db).2.map (·.id)
        = db.map (·.id))
  ∧ ((startTagUpdateBulkOperation remote now newId shop tagPreview db).1
        = .error "A bulk operation is already in progress for this shop."
      ∧ (startTagUpdateBulkOperation remote now newId shop tagPreview db).2.map (·.id)
        = db.map (·.id)) := by
  obtain ⟨opA, hmem, hshop, hact, hnstale⟩ := hactive
  have hnotstuck : ∀ s ∈ findStuckOperations now shop db, opA.id ≠ s.id := by
    intro s hs heq
    have hsmem : s ∈ db := List.mem_of_mem_filter hs
    have hpred := List.of_mem_filter hs
    have hsame : opA = s :=
      List.inj_on_of_nodup_map hnodup hmem hsmem heq
    rw [← hsame] at hpred
    simp only [decide_eq_true_eq] at hpred
    exact hnstale hpred.2.2
  have hmem1 : opA ∈ cleanupStuckOperations remote.poll now shop db :=
    mem_cleanupStuckOperations remote.poll now shop db opA hmem hnotstuck
  have hfindsome :
      (findActiveOperationForShop shop
        (cleanupStuckOperations remote.poll now shop db)).isSome := by
    apply List.find?_isSome.2
    refine ⟨opA, hmem1, ?_⟩
    simp [hshop, hact]
  rcases hfind : findActiveOperationForShop shop
      (cleanupStuckOperations remote.poll now shop db) with _ | found
  · rw [hfind] at hfindsome
    simp at hfindsome
  · have hprice : startPriceAdjustmentBulkOperation remote now newId shop pricePreview db
        = (.error "A bulk operation is already in progress for this shop.",
            cleanupStuckOperations remote.poll now shop db) := by
      simp only [startPriceAdjustmentBulkOperation, hfind]
    have htag : startTagUpdateBulkOperation remote now newId shop tagPreview db
        = (.error "A bulk operation is already in progress for this shop.",
            cleanupStuckOperations remote.poll now shop db) := by
      simp only [startTagUpdateBulkOperation, hfind]
    rw [hprice, htag]
    exact ⟨⟨rfl, cleanupStuckOperations_map_id remote.poll now shop db⟩,
      ⟨rfl, cleanupStuckOperations_map_id remote.poll now shop db⟩⟩

/-- C1 witness: a shop with one RUNNING, non-stale operation rejects both
start flavors at time 5 and the row ids are unchanged. -/
theorem startJob_conflict_witness :
    (([sampleRow].map OperationRecord.id).Nodup
  ∧ sampleRow.shop = "s1" ∧ isActiveStatus sampleRow.status = true
  ∧ ¬(sampleRow.createdAt + staleWindowMs < 5))
  ∧ (((startPriceAdjustmentBulkOperation okRemote 5 "op2" "s1"
        pricePreviewSample [sampleRow]).1
      = .error "A bulk operation is already in progress for this shop."
    ∧ (startPriceAdjustmentBulkOperation okRemote 5 "op2" "s1"
        pricePreviewSample [sampleRow]).2.map (·.id)
      = [sampleRow].map (·.id))
  ∧ ((startTagUpdateBulkOperation okRemote 5 "op2" "s1"
        tagPreviewSample [sampleRow]).1
      = .error "A bulk operation is already in progress for this shop."
    ∧ (startTagUpdateBulkOperation okRemote 5 "op2" "s1"
        tagPreviewSample [sampleRow]).2.map (·.id)
      = [sampleRow].map (·.id))) :=
  ⟨⟨by decide, rfl, rfl, by decide⟩,
    startJob_conflict okRemote 5 "op2" "s1" pricePreviewSample
      tagPreviewSample [sampleRow] (by decide)
      ⟨sampleRow, by simp, rfl, rfl, by decide⟩⟩

/-! ## C7: forward and inverse payloads are exact opposites -/

theorem forwardPayload_entry (preview : PricePreviewResult) (i j : Nat) :
    ((buildForwardPricePayload preview).products[i]?.bind
        (fun pr => pr.variants[j]?)).map (·.price)
      = (preview.products[i]?.bind (fun pr => pr.variants[j]?)).map
          (·.priceAfter) := by
  simp only [buildForwardPricePayload]
  rw [List.getElem?_map]
  rcases preview.products[i]? with _ | pr
  · rfl
  · simp only [Option.map_some', Option.some_bind, List.getElem?_map]
    rcases pr.variants[j]? with _ | v <;> rfl

theorem inversePayload_entry (preview : PricePreviewResult) (i j : Nat) :
    ((buildInversePricePayload preview).products[i]?.bind
        (fun pr => pr.variants[j]?)).map (·.price)
      = (preview.products[i]?.bind (fun pr => pr.variants[j]?)).map
          (·.priceBefore) := by
  simp only [buildInversePricePayload]
  rw [List.getElem?_map]
  rcases preview.products[i]? with _ | pr
  · rfl
  · simp only [Option.map_some', Option.some_bind, List.getElem?_map]
    rcases pr.variants[j]? with _ | v <;> rfl

/-- C7. The inverse of an increase-by-p spec is decrease-by-p and vice
versa with the percentage preserved; per variant the forward payload
carries the after-price and the inverse payload the before-price; and
applying the forward payload entry and then the inverse payload entry to
a variant's base price returns the base price exactly, hence within the
two-decimal rounding tolerance. -/
theorem price_inverse_roundtrip (preview : PricePreviewResult) (p : ℚ)
    (i j : Nat) :
    ((preview.adjustment = ⟨.increase, p⟩ →
        (buildInversePricePayload preview).adjustment = ⟨.decrease, p⟩)
  ∧ (preview.adjustment = ⟨.decrease, p⟩ →
        (buildInversePricePayload preview).adjustment = ⟨.increase, p⟩)
  ∧ (buildInversePricePayload preview).adjustment.percentage
      = preview.adjustment.percentage)
  ∧ (((buildForwardPricePayload preview).products[i]?.bind
        (fun pr => pr.variants[j]?)).map (·.price)
      = (preview.products[i]?.bind (fun pr => pr.variants[j]?)).map
          (·.priceAfter)
    ∧ ((buildInversePricePayload preview).products[i]?.bind
        (fun pr => pr.variants[j]?)).map (·.price)
      = (preview.products[i]?.bind (fun pr => pr.variants[j]?)).map
          (·.priceBefore))
  ∧ (∀ v : PricePreviewVariant, ∀ fwd inv : PayloadVariant,
      fwd.price = v.priceAfter → inv.price = v.priceBefore →
      applyVariantPrice inv (applyVariantPrice fwd v.priceBefore)
          = v.priceBefore
      ∧ |applyVariantPrice inv (applyVariantPrice fwd v.priceBefore)
            - v.priceBefore| ≤ 1 / 200) := by
  refine ⟨⟨?_, ?_, ?_⟩, ⟨forwardPayload_entry preview i j,
    inversePayload_entry preview i j⟩, ?_⟩
  · intro h
    simp [buildInversePricePayload, h]
  · intro h
    simp [buildInversePricePayload, h]
  · rfl
  · intro v fwd inv _hfwd hinv
    constructor
    · simp [applyVariantPrice, hinv]
    · simp [applyVariantPrice, hinv]

/-- C7 witness: the sample preview (increase by 10, base 20, after 22):
the inverse spec is decrease by 10, the forward entry carries 22, the
inverse entry carries 20, and forward-then-inverse lands back on 20. -/
theorem price_inverse_roundtrip_witness :
    (pricePreviewSample.adjustment = ⟨.increase, 10⟩
  ∧ (buildInversePricePayload pricePreviewSample).adjustment = ⟨.decrease, 10⟩)
  ∧ ((buildForwardPricePayload pricePreviewSample).products[0]?.bind
        (fun pr => pr.variants[0]?)).map (·.price) = some 22
  ∧ ((buildInversePricePayload pricePreviewSample).products[0]?.bind
        (fun pr => pr.variants[0]?)).map (·.price) = some 20
  ∧ applyVariantPrice { id := "v1", price := 20 }
      (applyVariantPrice { id := "v1", price := 22 } 20) = 20 :=
  ⟨⟨rfl, ((price_inverse_roundtrip pricePreviewSample 10 0 0).1.1 rfl)⟩,
    by decide,
    by decide,
    ((price_inverse_roundtrip pricePreviewSample 10 0 0).2.2
      { id := "v1", title := "V", priceBefore := 20, priceAfter := 22,
        currencyCode := "USD" }
      { id := "v1", price := 22 } { id := "v1", price := 20 } rfl rfl).1⟩

/-! ## C8: undo eligibility and effect -/

theorem findById_cleanup_foldl (poll : String → PollNetOutcome) (now : Nat)
    (st : List OperationRecord) (acc : List OperationRecord)
    (operationId : String) (op : OperationRecord)
    (hfind : findOperationById operationId acc = some op)
    (hne : ∀ s ∈ st, operationId ≠ s.id) :
    findOperationById operationId
      (st.foldl
        (fun acc op =>
          match op.bulkOperationId with
          | some bid =>
            let status := pollBulkOperationStatus poll now bid
            if status.status = .EXPIRED ∨ status.errorCode = some "NOT_FOUND" then
              updateOperation now
                { id := op.id
                  status := some .EXPIRED
                  completedAt := some now
                  errorMessage := some
                    "Auto-expired: bulk operation not found in Shopify or timed out (>1 hour)" }
                acc
            else acc
          | none =>
            updateOperation now
              { id := op.id
                status := some .FAILED
                completedAt := some now
                errorMessage := some
                  "Auto-failed: no bulk operation ID found after 1 hour" }
              acc)
        acc) = some op := by
  induction st generalizing acc with
  | nil => exact hfind
  | cons s ss ih =>
    rw [List.foldl_cons]
    refine ih _ ?_ (fun x hx => hne x (List.mem_cons_of_mem s hx))
    have hrs : operationId ≠ s.id := hne s (List.mem_cons_self s ss)
    have hop : op.id = operationId := findOperationById_id hfind
    have hkeep : ∀ u : UpdateOperationInput, u.id = s.id →
        findOperationById operationId (updateOperation now u acc) = some op := by
      intro u hu
      rw [findOperationById_updateOperation, hfind]
      have : ¬(op.id = u.id) := by
        rw [hop, hu]
        exact hrs
      simp [this]
    rcases hb : s.bulkOperationId with _ | bid
    · simp only [hb]
      exact hkeep _ rfl
    · simp only [hb]
      split
      · exact hkeep _ rfl
      · exact hfind

theorem findById_cleanupStuckOperations (poll : String → PollNetOutcome)
    (now : Nat) (shop : String) (db : List OperationRecord)
    (operationId : String) (op : OperationRecord)
    (hnodup : (db.map OperationRecord.id).Nodup)
    (hfind : findOperationById operationId db = some op)
    (hnotstuck : ¬(op.shop = shop ∧ isActiveStatus op.status = true
        ∧ op.createdAt + staleWindowMs < now)) :
    findOperationById operationId (cleanupStuckOperations poll now shop db)
      = some op := by
  apply findById_cleanup_foldl poll now _ _ _ _ hfind
  intro s hs heq
  have hsmem : s ∈ db := List.mem_of_mem_filter hs
  have hpred := List.of_mem_filter hs
  have hopmem : op ∈ db := List.mem_of_find?_eq_some hfind
  have hop : op.id = operationId := findOperationById_id hfind
  have hsame : op = s :=
    List.inj_on_of_nodup_map hnodup hopmem hsmem (by rw [hop, heq])
  rw [← hsame] at hpred
  simp only [decide_eq_true_eq] at hpred
  exact hnotstuck hpred

/-- Inversion of a successful startPriceAdjustmentBulkOperation: the
upload and submission succeeded, the returned operation is the created
row moved to RUNNING with the remote id, and the final database is the
created row plus the swept original rows, all stamped by that update. -/
theorem startPrice_success (remote : RemoteOracle) (now : Nat)
    (newId : String) (shop : String) (preview : PricePreviewResult)
    (db : List OperationRecord) (result : OperationRecord)
    (db2 : List OperationRecord)
    (h : startPriceAdjustmentBulkOperation remote now newId shop preview db
      = (.ok result, db2)) :
    ∃ key bid,
      remote.upload = .ok key
    ∧ remote.submit key = .response [] (some bid)
    ∧ result = applyUpdate now
        { id := newId, status := some .RUNNING, bulkOperationId := some bid }
        (createOperation now newId shop .PRICE_ADJUSTMENT
          (.price (buildForwardPricePayload preview))
          (some (.price (buildInversePricePayload preview)))
          (cleanupStuckOperations remote.poll now shop db)).1
    ∧ db2 = updateOperation now
        { id := newId, status := some .RUNNING, bulkOperationId := some bid }
        ((createOperation now newId shop .PRICE_ADJUSTMENT
          (.price (buildForwardPricePayload preview))
          (some (.price (buildInversePricePayload preview)))
          (cleanupStuckOperations remote.poll now shop db)).1
          :: cleanupStuckOperations remote.poll now shop db) := by
  rcases hfindact : findActiveOperationForShop shop
      (cleanupStuckOperations remote.poll now shop db) with _ | a
  · by_cases hprod : preview.products = []
    · simp only [startPriceAdjustmentBulkOperation, hfindact, if_pos hprod] at h
      exact absurd (congrArg Prod.fst h) (by simp)
    · rcases hup : remote.upload with key | msg
      · simp only [startPriceAdjustmentBulkOperation, hfindact, if_neg hprod,
          hup] at h
        rcases hsub : remote.submit key with ⟨userErrors, bulkId⟩ | msg
        · by_cases hue : userErrors = []
          · subst hue
            rcases bulkId with _ | bid
            · simp only [submitAndTrack, hsub] at h
              simp at h
            · have hrow : findOperationById newId
                  (updateOperation now
                    { id := newId, status := some .RUNNING,
                      bulkOperationId := some bid }
                    ((createOperation now newId shop .PRICE_ADJUSTMENT
                      (.price (buildForwardPricePayload preview))
                      (some (.price (buildInversePricePayload preview)))
                      (cleanupStuckOperations remote.poll now shop db)).1
                      :: cleanupStuckOperations remote.poll now shop db))
                  = some (applyUpdate now
                    { id := newId, status := some .RUNNING,
                      bulkOperationId := some bid }
                    (createOperation now newId shop .PRICE_ADJUSTMENT
                      (.price (buildForwardPricePayload preview))
                      (some (.price (buildInversePricePayload preview)))
                      (cleanupStuckOperations remote.poll now shop db)).1) := by
                rw [findOperationById_updateOperation]
                have hhead : findOperationById newId
                    ((createOperation now newId shop .PRICE_ADJUSTMENT
                      (.price (buildForwardPricePayload preview))
                      (some (.price (buildInversePricePayload preview)))
                      (cleanupStuckOperations remote.poll now shop db)).1
                      :: cleanupStuckOperations remote.poll now shop db)
                    = some (createOperation now newId shop .PRICE_ADJUSTMENT
                      (.price (buildForwardPricePayload preview))
                      (some (.price (buildInversePricePayload preview)))
                      (cleanupStuckOperations remote.poll now shop db)).1 := by
                  unfold findOperationById
                  apply List.find?_cons_of_pos
                  simp [createOperation]
                rw [hhead]
                simp [createOperation]
              simp only [submitAndTrack, hsub] at h
              rw [if_neg (show ¬(([] : List String) ≠ []) from
                fun hne => hne rfl)] at h
              have hcid : (createOperation now newId shop .PRICE_ADJUSTMENT
                  (.price (buildForwardPricePayload preview))
                  (some (.price (buildInversePricePayload preview)))
                  (cleanupStuckOperations remote.poll now shop db)).1.id
                  = newId := rfl
              rw [hcid] at h
              have hc2 : (createOperation now newId shop .PRICE_ADJUSTMENT
                  (.price (buildForwardPricePayload preview))
                  (some (.price (buildInversePricePayload preview)))
                  (cleanupStuckOperations remote.poll now shop db)).2
                  = (createOperation now newId shop .PRICE_ADJUSTMENT
                      (.price (buildForwardPricePayload preview))
                      (some (.price (buildInversePricePayload preview)))
                      (cleanupStuckOperations remote.poll now shop db)).1
                    :: cleanupStuckOperations remote.poll now shop db := rfl
              rw [hc2] at h
              simp only [hrow] at h
              have h1 := congrArg Prod.fst h
              have h2 := congrArg Prod.snd h
              simp only at h1 h2
              refine ⟨key, bid, rfl, hsub, ?_, h2.symm⟩
              injection h1 with hres
              exact hres.symm
          · simp only [submitAndTrack, hsub, if_pos hue] at h
            simp at h
        · simp only [submitAndTrack, hsub] at h
          simp at h
      · simp only [startPriceAdjustmentBulkOperation, hfindact, if_neg hprod,
          hup] at h
        simp at h
  · simp only [startPriceAdjustmentBulkOperation, hfindact] at h
    simp at h

/-- Inversion of a successful startTagUpdateBulkOperation, the tag
analogue of startPrice_success. -/
theorem startTag_success (remote : RemoteOracle) (now : Nat)
    (newId : String) (shop : String) (preview : TagPreviewResult)
    (db : List OperationRecord) (result : OperationRecord)
    (db2 : List OperationRecord)
    (h : startTagUpdateBulkOperation remote now newId shop preview db
      = (.ok result, db2)) :
    ∃ key bid,
      remote.upload = .ok key
    ∧ remote.submit key = .response [] (some bid)
    ∧ result = applyUpdate now
        { id := newId, status := some .RUNNING, bulkOperationId := some bid }
        (createOperation now newId shop .TAG_UPDATE
          (.tag (buildForwardTagPayload preview))
          (some (.tag (buildInverseTagPayload preview)))
          (cleanupStuckOperations remote.poll now shop db)).1
    ∧ db2 = updateOperation now
        { id := newId, status := some .RUNNING, bulkOperationId := some bid }
        ((createOperation now newId shop .TAG_UPDATE
          (.tag (buildForwardTagPayload preview))
          (some (.tag (buildInverseTagPayload preview)))
          (cleanupStuckOperations remote.poll now shop db)).1
          :: cleanupStuckOperations remote.poll now shop db) := by
  rcases hfindact : findActiveOperationForShop shop
      (cleanupStuckOperations remote.poll now shop db) with _ | a
  · by_cases hprod : preview.products = []
    · simp only [startTagUpdateBulkOperation, hfindact, if_pos hprod] at h
      exact absurd (congrArg Prod.fst h) (by simp)
    · rcases hup : remote.upload with key | msg
      · simp only [startTagUpdateBulkOperation, hfindact, if_neg hprod,
          hup] at h
        rcases hsub : remote.submit key with ⟨userErrors, bulkId⟩ | msg
        · by_cases hue : userErrors = []
          · subst hue
            rcases bulkId with _ | bid
            · simp only [submitAndTrack, hsub] at h
              simp at h
            · have hrow : findOperationById newId
                  (updateOperation now
                    { id := newId, status := some .RUNNING,
                      bulkOperationId := some bid }
                    ((createOperation now newId shop .TAG_UPDATE
                      (.tag (buildForwardTagPayload preview))
                      (some (.tag (buildInverseTagPayload preview)))
                      (cleanupStuckOperations remote.poll now shop db)).1
                      :: cleanupStuckOperations remote.poll now shop db))
                  = some (applyUpdate now
                    { id := newId, status := some .RUNNING,
                      bulkOperationId := some bid }
                    (createOperation now newId shop .TAG_UPDATE
                      (.tag (buildForwardTagPayload preview))
                      (some (.tag (buildInverseTagPayload preview)))
                      (cleanupStuckOperations remote.poll now shop db)).1) := by
                rw [findOperationById_updateOperation]
                have hhead : findOperationById newId
                    ((createOperation now newId shop .TAG_UPDATE
                      (.tag (buildForwardTagPayload preview))
                      (some (.tag (buildInverseTagPayload preview)))
                      (cleanupStuckOperations remote.poll now shop db)).1
                      :: cleanupStuckOperations remote.poll now shop db)
                    = some (createOperation now newId shop .TAG_UPDATE
                      (.tag (buildForwardTagPayload preview))
                      (some (.tag (buildInverseTagPayload preview)))
                      (cleanupStuckOperations remote.poll now shop db)).1 := by
                  unfold findOperationById
                  apply List.find?_cons_of_pos
                  simp [createOperation]
                rw [hhead]
                simp [createOperation]
              simp only [submitAndTrack, hsub] at h
              rw [if_neg (show ¬(([] : List String) ≠ []) from
                fun hne => hne rfl)] at h
              have hcid : (createOperation now newId shop .TAG_UPDATE
                  (.tag (buildForwardTagPayload preview))
                  (some (.tag (buildInverseTagPayload preview)))
                  (cleanupStuckOperations remote.poll now shop db)).1.id
                  = newId := rfl
              rw [hcid] at h
              have hc2 : (createOperation now newId shop .TAG_UPDATE
                  (.tag (buildForwardTagPayload preview))
                  (some (.tag (buildInverseTagPayload preview)))
                  (cleanupStuckOperations remote.poll now shop db)).2
                  = (createOperation now newId shop .TAG_UPDATE
                      (.tag (buildForwardTagPayload preview))
                      (some (.tag (buildInverseTagPayload preview)))
                      (cleanupStuckOperations remote.poll now shop db)).1
                    :: cleanupStuckOperations remote.poll now shop db := rfl
              rw [hc2] at h
              simp only [hrow] at h
              have h1 := congrArg Prod.fst h
              have h2 := congrArg Prod.snd h
              simp only at h1 h2
              refine ⟨key, bid, rfl, hsub, ?_, h2.symm⟩
              injection h1 with hres
              exact hres.symm
          · simp only [submitAndTrack, hsub, if_pos hue] at h
            simp at h
        · simp only [submitAndTrack, hsub] at h
          simp at h
      · simp only [startTagUpdateBulkOperation, hfindact, if_neg hprod,
          hup] at h
        simp at h
  · simp only [startTagUpdateBulkOperation, hfindact] at h
    simp at h

/-- C8 counterexample: undoOperation never consults the undone flag. On
a database whose only row is COMPLETED, carries an inverse payload, and
is already flagged undone, the undo succeeds and starts a new bulk job
instead of rejecting. -/
theorem undo_ignores_undone_flag :
    undoneRow.undone = true
  ∧ (undoOperation okRemote 5 "op2" "s1" "op1" [undoneRow]).1
      = .ok { id := "op2", shop := "s1", type := .PRICE_ADJUSTMENT,
              status := .RUNNING,
              payload := some (.price
                { adjustment := { direction := .decrease, percentage := 10 }
                  products := [{ id := "p1", title := some "T",
                                 variants := [{ id := "v1", price := 10 }] }] })
              inversePayload := some (.price
                { adjustment := { direction := .increase, percentage := 10 }
                  products := [{ id := "p1", title := some "T",
                                 variants := [{ id := "v1", price := 10 }] }] })
              bulkOperationId := some "gid1", createdAt := 5,
              updatedAt := some 5 } :=
  ⟨rfl, rfl⟩

/-- C8 as amended: a successful undo implies the referenced operation
was COMPLETED with a non-null inverse payload (the undone flag, however,
is not checked: a previously undone operation can be undone again, see
the counterexample); the new operation is the freshly created row moved
to RUNNING whose payloads are computed from the stored inverse payload
alone (no live re-fetch), and the original row is flagged undone with
undoneAt set to now and undoneByOperationId set to the new row's id. -/
theorem undoOperation_success (remote : RemoteOracle) (now : Nat)
    (newId : String) (shop : String) (operationId : String)
    (db : List OperationRecord) (result : OperationRecord)
    (db2 : List OperationRecord) (op : OperationRecord)
    (hnodup : (db.map OperationRecord.id).Nodup)
    (hfresh : newId ∉ db.map OperationRecord.id)
    (hfind : findOperationById operationId db = some op)
    (h : undoOperation remote now newId shop operationId db
      = (.ok result, db2)) :
    op.status = .COMPLETED
  ∧ op.inversePayload.isSome
  ∧ result.id = newId
  ∧ result.status = .RUNNING
  ∧ (∀ ip, op.inversePayload = some (.price ip) →
      result.payload = some (.price
        (buildForwardPricePayload (previewFromInversePayload ip)))
      ∧ result.inversePayload = some (.price
        (buildInversePricePayload (previewFromInversePayload ip))))
  ∧ findOperationById operationId db2
      = some (applyUpdate now
          { id := operationId, undone := some true, undoneAt := some now,
            undoneByOperationId := some result.id } op)
  ∧ (applyUpdate now
      { id := operationId, undone := some true, undoneAt := some now,
        undoneByOperationId := some result.id } op).undone = true
  ∧ (applyUpdate now
      { id := operationId, undone := some true, undoneAt := some now,
        undoneByOperationId := some result.id } op).undoneAt = some now
  ∧ (applyUpdate now
      { id := operationId, undone := some true, undoneAt := some now,
        undoneByOperationId := some result.id } op).undoneByOperationId
      = some result.id := by
  have hopid : op.id = operationId := findOperationById_id hfind
  have hopmem : op ∈ db := List.mem_of_find?_eq_some hfind
  have hne_newId : newId ≠ operationId := by
    intro he
    apply hfresh
    rw [he, ← hopid]
    exact List.mem_map_of_mem _ hopmem
  simp only [undoOperation, hfind] at h
  by_cases hstat : op.status = .COMPLETED
  · rw [if_neg (show ¬(op.status ≠ .COMPLETED) from fun hc => hc hstat)] at h
    rcases hip : op.inversePayload with _ | sp
    · simp only [hip] at h
      exact absurd (congrArg Prod.fst h) (by simp)
    · simp only [hip] at h
      have hnotstuck : ¬(op.shop = shop ∧ isActiveStatus op.status = true
          ∧ op.createdAt + staleWindowMs < now) := by
        rintro ⟨_, ha, _⟩
        rw [hstat] at ha
        simp [isActiveStatus] at ha
      have hflag : ∀ (res : OperationRecord) (dbs : List OperationRecord),
          findOperationById operationId dbs = some op →
          findOperationById operationId
            (updateOperation now
              { id := operationId, undone := some true, undoneAt := some now,
                undoneByOperationId := some res.id } dbs)
          = some (applyUpdate now
              { id := operationId, undone := some true, undoneAt := some now,
                undoneByOperationId := some res.id } op) := by
        intro res dbs hdbs
        rw [findOperationById_updateOperation, hdbs]
        have hmap : ∀ (f : OperationRecord → OperationRecord),
            (some op).map f = some (f op) := fun _ => rfl
        rw [hmap, if_pos hopid]
      rcases sp with ip | itp
      · -- PRICE_ADJUSTMENT payload
        rcases htype : op.type with _ | _ | _
        · simp only [htype] at h
          rcases hstart : startPriceAdjustmentBulkOperation remote now newId
              shop (previewFromInversePayload ip) db with ⟨res, dbs⟩
          simp only [hstart] at h
          rcases res with e | r0
          · exact absurd (congrArg Prod.fst h) (by simp)
          · have h1 := congrArg Prod.fst h
            have h2 := congrArg Prod.snd h
            simp only at h1 h2
            injection h1 with hres
            obtain ⟨key, bid, hup, hsub, hr0, hdbs⟩ :=
              startPrice_success remote now newId shop
                (previewFromInversePayload ip) db r0 dbs hstart
            have hdbsfind : findOperationById operationId dbs = some op := by
              rw [hdbs, findOperationById_updateOperation]
              have hclean : findOperationById operationId
                  (cleanupStuckOperations remote.poll now shop db) = some op :=
                findById_cleanupStuckOperations remote.poll now shop db
                  operationId op hnodup hfind hnotstuck
              have hcons : findOperationById operationId
                  ((createOperation now newId shop .PRICE_ADJUSTMENT
                    (.price (buildForwardPricePayload (previewFromInversePayload ip)))
                    (some (.price (buildInversePricePayload (previewFromInversePayload ip))))
                    (cleanupStuckOperations remote.poll now shop db)).1
                    :: cleanupStuckOperations remote.poll now shop db)
                  = some op := by
                unfold findOperationById at hclean ⊢
                rw [List.find?_cons_of_neg]
                · exact hclean
                · simp [createOperation]
                  exact hne_newId
              rw [hcons]
              have hmap : ∀ (f : OperationRecord → OperationRecord),
                  (some op).map f = some (f op) := fun _ => rfl
              rw [hmap, if_neg (by rw [hopid]; exact fun he => hne_newId he.symm)]
            refine ⟨hstat, ?_, ?_, ?_, ?_, ?_, rfl, rfl, rfl⟩
            · simp [hip]
            · rw [← hres, hr0]
              rfl
            · rw [← hres, hr0]
              rfl
            · intro ip2 hip2
              injection hip2 with hh
              injection hh with hh2
              subst hh2
              constructor
              · rw [← hres, hr0]
                rfl
              · rw [← hres, hr0]
                rfl
            · rw [← h2, ← hres]
              exact hflag r0 dbs hdbsfind
        · simp only [htype] at h
          exact absurd (congrArg Prod.fst h) (by simp)
        · simp only [htype] at h
          exact absurd (congrArg Prod.fst h) (by simp)
      · -- TAG_UPDATE payload
        rcases htype : op.type with _ | _ | _
        · simp only [htype] at h
          exact absurd (congrArg Prod.fst h) (by simp)
        · simp only [htype] at h
          rcases hstart : startTagUpdateBulkOperation remote now newId
              shop (tagPreviewFromInversePayload itp) db with ⟨res, dbs⟩
          simp only [hstart] at h
          rcases res with e | r0
          · exact absurd (congrArg Prod.fst h) (by simp)
          · have h1 := congrArg Prod.fst h
            have h2 := congrArg Prod.snd h
            simp only at h1 h2
            injection h1 with hres
            obtain ⟨key, bid, hup, hsub, hr0, hdbs⟩ :=
              startTag_success remote now newId shop
                (tagPreviewFromInversePayload itp) db r0 dbs hstart
            have hdbsfind : findOperationById operationId dbs = some op := by
              rw [hdbs, findOperationById_updateOperation]
              have hclean : findOperationById operationId
                  (cleanupStuckOperations remote.poll now shop db) = some op :=
                findById_cleanupStuckOperations remote.poll now shop db
                  operationId op hnodup hfind hnotstuck
              have hcons : findOperationById operationId
                  ((createOperation now newId shop .TAG_UPDATE
                    (.tag (buildForwardTagPayload (tagPreviewFromInversePayload itp)))
                    (some (.tag (buildInverseTagPayload (tagPreviewFromInversePayload itp))))
                    (cleanupStuckOperations remote.poll now shop db)).1
                    :: cleanupStuckOperations remote.poll now shop db)
                  = some op := by
                unfold findOperationById at hclean ⊢
                rw [List.find?_cons_of_neg]
                · exact hclean
                · simp [createOperation]
                  exact hne_newId
              rw [hcons]
              have hmap : ∀ (f : OperationRecord → OperationRecord),
                  (some op).map f = some (f op) := fun _ => rfl
              rw [hmap, if_neg (by rw [hopid]; exact fun he => hne_newId he.symm)]
            refine ⟨hstat, ?_, ?_, ?_, ?_, ?_, rfl, rfl, rfl⟩
            · simp [hip]
            · rw [← hres, hr0]
              rfl
            · rw [← hres, hr0]
              rfl
            · intro ip2 hip2
              injection hip2 with hh
              exact OpPayload.noConfusion hh
            · rw [← h2, ← hres]
              exact hflag r0 dbs hdbsfind
        · simp only [htype] at h
          exact absurd (congrArg Prod.fst h) (by simp)
  · rw [if_pos hstat] at h
    exact absurd (congrArg Prod.fst h) (by simp)

/-- C8 amended witness: a concrete successful undo of the already-undone
COMPLETED row: the new operation has the fresh id, is RUNNING, and its
payloads come from the stored inverse payload. -/
theorem undoOperation_success_witness :
    ([undoneRow].map OperationRecord.id).Nodup
  ∧ "op2" ∉ [undoneRow].map OperationRecord.id
  ∧ findOperationById "op1" [undoneRow] = some undoneRow
  ∧ (undoneRow.status = .COMPLETED
    ∧ undoneRow.inversePayload.isSome
    ∧ ({ id := "op2", shop := "s1", type := .PRICE_ADJUSTMENT,
         status := .RUNNING,
         payload := some (.price
           { adjustment := { direction := .decrease, percentage := 10 }
             products := [{ id := "p1", title := some "T",
                            variants := [{ id := "v1", price := 10 }] }] })
         inversePayload := some (.price
           { adjustment := { direction := .increase, percentage := 10 }
             products := [{ id := "p1", title := some "T",
                            variants := [{ id := "v1", price := 10 }] }] })
         bulkOperationId := some "gid1", createdAt := 5,
         updatedAt := some 5 } : OperationRecord).id = "op2") :=
  ⟨by decide, by decide, rfl,
    (undoOperation_success okRemote 5 "op2" "s1" "op1" [undoneRow]
      { id := "op2", shop := "s1", type := .PRICE_ADJUSTMENT,
        status := .RUNNING,
        payload := some (.price
          { adjustment := { direction := .decrease, percentage := 10 }
            products := [{ id := "p1", title := some "T",
                           variants := [{ id := "v1", price := 10 }] }] })
        inversePayload := some (.price
          { adjustment := { direction := .increase, percentage := 10 }
            products := [{ id := "p1", title := some "T",
                           variants := [{ id := "v1", price := 10 }] }] })
        bulkOperationId := some "gid1", createdAt := 5,
        updatedAt := some 5 }
      (undoOperation okRemote 5 "op2" "s1" "op1" [undoneRow]).2
      undoneRow (by decide) (by decide) rfl rfl).1,
    (undoOperation_success okRemote 5 "op2" "s1" "op1" [undoneRow]
      { id := "op2", shop := "s1", type := .PRICE_ADJUSTMENT,
        status := .RUNNING,
        payload := some (.price
          { adjustment := { direction := .decrease, percentage := 10 }
            products := [{ id := "p1", title := some "T",
                           variants := [{ id := "v1", price := 10 }] }] })
        inversePayload := some (.price
          { adjustment := { direction := .increase, percentage := 10 }
            products := [{ id := "p1", title := some "T",
                           variants := [{ id := "v1", price := 10 }] }] })
        bulkOperationId := some "gid1", createdAt := 5,
        updatedAt := some 5 }
      (undoOperation okRemote 5 "op2" "s1" "op1" [undoneRow]).2
      undoneRow (by decide) (by decide) rfl rfl).2.1,
    rfl⟩

/-! ## C9: retry counts and backoff policy of graphqlWithRetry -/

theorem go_delays (outcomes : Nat → AttemptOutcome) (jitters : Nat → ℚ)
    (maxRetries : Nat) (initialDelay maxDelay : ℚ) :
    ∀ fuel attempt, attempt + fuel = maxRetries + 1 →
      ((graphqlWithRetryGo outcomes jitters maxRetries initialDelay maxDelay
          fuel attempt).delays.length ≤ maxRetries - attempt)
      ∧ (∀ k, k < (graphqlWithRetryGo outcomes jitters maxRetries
            initialDelay maxDelay fuel attempt).delays.length →
          (graphqlWithRetryGo outcomes jitters maxRetries initialDelay
            maxDelay fuel attempt).delays.get? k
            = some (calculateBackoffDelay (attempt + k + 1) initialDelay
                maxDelay (jitters (attempt + k + 1)))) := by
  intro fuel
  induction fuel with
  | zero =>
    intro attempt _
    simp [graphqlWithRetryGo]
  | succ fuel ih =>
    intro attempt hsum
    rcases hout : outcomes attempt with ⟨thr, cost⟩ | m
    · by_cases hc : (thr = true ∧ attempt < maxRetries)
      · have hval : graphqlWithRetryGo outcomes jitters maxRetries
            initialDelay maxDelay (fuel + 1) attempt
            = { graphqlWithRetryGo outcomes jitters maxRetries initialDelay
                  maxDelay fuel (attempt + 1) with
                delays := calculateBackoffDelay (attempt + 1) initialDelay
                    maxDelay (jitters (attempt + 1))
                  :: (graphqlWithRetryGo outcomes jitters maxRetries
                      initialDelay maxDelay fuel (attempt + 1)).delays } := by
          simp only [graphqlWithRetryGo, hout, if_pos hc]
        rw [hval]
        obtain ⟨ih1, ih2⟩ := ih (attempt + 1) (by omega)
        constructor
        · simp only [List.length_cons]
          omega
        · intro k hk
          rcases k with _ | k
          · rfl
          · simp only [List.length_cons] at hk
            have hlt : k < (graphqlWithRetryGo outcomes jitters maxRetries
                initialDelay maxDelay fuel (attempt + 1)).delays.length := by
              omega
            have hrec := ih2 k hlt
            have hcons : ∀ (d : ℤ) (l : List ℤ) (n : Nat),
                (d :: l).get? (n + 1) = l.get? n := fun _ _ _ => rfl
            rw [hcons]
            rw [hrec]
            have harith : attempt + 1 + k + 1 = attempt + (k + 1) + 1 := by
              omega
            rw [harith]
      · simp only [graphqlWithRetryGo, hout, if_neg hc]
        simp
    · by_cases hc : maxRetries ≤ attempt
      · simp only [graphqlWithRetryGo, hout, if_pos hc]
        simp
      · have hval : graphqlWithRetryGo outcomes jitters maxRetries
            initialDelay maxDelay (fuel + 1) attempt
            = { graphqlWithRetryGo outcomes jitters maxRetries initialDelay
                  maxDelay fuel (attempt + 1) with
                delays := calculateBackoffDelay (attempt + 1) initialDelay
                    maxDelay (jitters (attempt + 1))
                  :: (graphqlWithRetryGo outcomes jitters maxRetries
                      initialDelay maxDelay fuel (attempt + 1)).delays } := by
          simp only [graphqlWithRetryGo, hout, if_neg hc]
        rw [hval]
        obtain ⟨ih1, ih2⟩ := ih (attempt + 1) (by omega)
        constructor
        · simp only [List.length_cons]
          omega
        · intro k hk
          rcases k with _ | k
          · rfl
          · simp only [List.length_cons] at hk
            have hlt : k < (graphqlWithRetryGo outcomes jitters maxRetries
                initialDelay maxDelay fuel (attempt + 1)).delays.length := by
              omega
            have hrec := ih2 k hlt
            have hcons : ∀ (d : ℤ) (l : List ℤ) (n : Nat),
                (d :: l).get? (n + 1) = l.get? n := fun _ _ _ => rfl
            rw [hcons]
            rw [hrec]
            have harith : attempt + 1 + k + 1 = attempt + (k + 1) + 1 := by
              omega
            rw [harith]

theorem go_result_netError (outcomes : Nat → AttemptOutcome)
    (jitters : Nat → ℚ) (maxRetries : Nat) (initialDelay maxDelay : ℚ)
    (msg : Nat → String) :
    ∀ fuel attempt, attempt + fuel = maxRetries + 1 → attempt ≤ maxRetries →
      (∀ i, attempt ≤ i → i ≤ maxRetries → outcomes i = .netError (msg i)) →
      (graphqlWithRetryGo outcomes jitters maxRetries initialDelay maxDelay
        fuel attempt).result = .error (msg maxRetries) := by
  intro fuel
  induction fuel with
  | zero =>
    intro attempt hsum hle _
    omega
  | succ fuel ih =>
    intro attempt hsum hle hout
    have hthis : outcomes attempt = .netError (msg attempt) :=
      hout attempt le_rfl hle
    simp only [graphqlWithRetryGo, hthis]
    by_cases hc : maxRetries ≤ attempt
    · rw [if_pos hc]
      have : attempt = maxRetries := le_antisymm hle hc
      rw [this]
    · rw [if_neg hc]
      have hres : ∀ (d : ℤ) (t : RetryTrace),
          ({ t with delays := d :: t.delays } : RetryTrace).result
            = t.result := fun _ _ => rfl
      rw [hres]
      exact ih (attempt + 1) (by omega) (by omega)
        (fun i hi1 hi2 => hout i (by omega) hi2)

theorem go_result_throttled (outcomes : Nat → AttemptOutcome)
    (jitters : Nat → ℚ) (maxRetries : Nat) (initialDelay maxDelay : ℚ) :
    ∀ fuel attempt, attempt + fuel = maxRetries + 1 → attempt ≤ maxRetries →
      (∀ i, attempt ≤ i → i ≤ maxRetries → outcomes i = .response true none) →
      (graphqlWithRetryGo outcomes jitters maxRetries initialDelay maxDelay
        fuel attempt).result = .ok (true, none) := by
  intro fuel
  induction fuel with
  | zero =>
    intro attempt hsum hle _
    omega
  | succ fuel ih =>
    intro attempt hsum hle hout
    have hthis : outcomes attempt = .response true none :=
      hout attempt le_rfl hle
    simp only [graphqlWithRetryGo, hthis]
    by_cases hc : attempt < maxRetries
    · rw [if_pos (show (True ∧ attempt < maxRetries) from ⟨trivial, hc⟩)]
      have hres : ∀ (d : ℤ) (t : RetryTrace),
          ({ t with delays := d :: t.delays } : RetryTrace).result
            = t.result := fun _ _ => rfl
      rw [hres]
      exact ih (attempt + 1) (by omega) (by omega)
        (fun i hi1 hi2 => hout i (by omega) hi2)
    · rw [if_neg (fun hand => hc hand.2)]

/-- C9. graphqlWithRetry makes at most maxRetries retries; the backoff
delay before the k-th retry (0-based) is the floor of
min(initialDelay * 2^k * (1 + jitter * 0.3), maxDelay) for a jitter
sample in [0, 1), so it lies between the exponential base and 130
percent of it and never exceeds the floor of maxDelay; when every
attempt fails with a transport error the last error is propagated after
the budget is exhausted; and when every attempt is throttled the
throttled response is returned to the caller after the budget is
exhausted. -/
theorem graphqlWithRetry_policy (outcomes : Nat → AttemptOutcome)
    (jitters : Nat → ℚ) (cfg : RetryConfig) (msg : Nat → String)
    (hj : ∀ a, 0 ≤ jitters a ∧ jitters a < 1)
    (hinit : 0 ≤ cfg.initialDelay) :
    (graphqlWithRetry outcomes jitters cfg).delays.length ≤ cfg.maxRetries
  ∧ (∀ k, k < (graphqlWithRetry outcomes jitters cfg).delays.length →
      (graphqlWithRetry outcomes jitters cfg).delays.get? k
        = some ⌊min (cfg.initialDelay * 2 ^ k
            * (1 + jitters (k + 1) * (3 / 10))) cfg.maxDelay⌋
      ∧ cfg.initialDelay * 2 ^ k
          ≤ cfg.initialDelay * 2 ^ k * (1 + jitters (k + 1) * (3 / 10))
      ∧ cfg.initialDelay * 2 ^ k * (1 + jitters (k + 1) * (3 / 10))
          ≤ cfg.initialDelay * 2 ^ k * (13 / 10)
      ∧ (⌊min (cfg.initialDelay * 2 ^ k
            * (1 + jitters (k + 1) * (3 / 10))) cfg.maxDelay⌋ : ℤ)
          ≤ ⌊cfg.maxDelay⌋)
  ∧ ((∀ i, i ≤ cfg.maxRetries → outcomes i = .netError (msg i)) →
      (graphqlWithRetry outcomes jitters cfg).result
        = .error (msg cfg.maxRetries))
  ∧ ((∀ i, i ≤ cfg.maxRetries → outcomes i = .response true none) →
      (graphqlWithRetry outcomes jitters cfg).result = .ok (true, none)) := by
  obtain ⟨hlen, hget⟩ := go_delays outcomes jitters cfg.maxRetries
    cfg.initialDelay cfg.maxDelay (cfg.maxRetries + 1) 0 (by omega)
  have hGW : graphqlWithRetry outcomes jitters cfg
      = graphqlWithRetryGo outcomes jitters cfg.maxRetries cfg.initialDelay
          cfg.maxDelay (cfg.maxRetries + 1) 0 := rfl
  rw [hGW]
  refine ⟨by simpa using hlen, ?_, ?_, ?_⟩
  · intro k hk
    have hbase : (0 : ℚ) ≤ cfg.initialDelay * 2 ^ k := by positivity
    obtain ⟨hj0, hj1⟩ := hj (k + 1)
    have hform := hget k hk
    have hcalc : calculateBackoffDelay (0 + k + 1) cfg.initialDelay
        cfg.maxDelay (jitters (0 + k + 1))
        = ⌊min (cfg.initialDelay * 2 ^ k
            * (1 + jitters (k + 1) * (3 / 10))) cfg.maxDelay⌋ := by
      unfold calculateBackoffDelay
      have hk1 : 0 + k + 1 - 1 = k := by omega
      have hk2 : 0 + k + 1 = k + 1 := by omega
      rw [hk1, hk2]
      ring_nf
    rw [hcalc] at hform
    refine ⟨hform, ?_, ?_, Int.floor_le_floor (min_le_right _ _)⟩
    · nlinarith
    · nlinarith
  · intro hout
    exact go_result_netError outcomes jitters cfg.maxRetries
      cfg.initialDelay cfg.maxDelay msg (cfg.maxRetries + 1) 0 (by omega)
      (by omega) (fun i _ hi2 => hout i hi2)
  · intro hout
    exact go_result_throttled outcomes jitters cfg.maxRetries
      cfg.initialDelay cfg.maxDelay (cfg.maxRetries + 1) 0 (by omega)
      (by omega) (fun i _ hi2 => hout i hi2)

/-- C9 witness: with all attempts failing, jitter samples 0 and the
default configuration, the trace sleeps 1000, 2000 and 4000 ms and then
propagates the last error. -/
theorem graphqlWithRetry_policy_witness :
    (∀ a : Nat, 0 ≤ (fun _ : Nat => (0 : ℚ)) a
      ∧ (fun _ : Nat => (0 : ℚ)) a < 1)
  ∧ (0 : ℚ) ≤ ({ } : RetryConfig).initialDelay
  ∧ (graphqlWithRetry (fun _ => .netError "socket hangup")
      (fun _ => 0) { }).delays = [1000, 2000, 4000]
  ∧ (graphqlWithRetry (fun _ => .netError "socket hangup")
      (fun _ => 0) { }).result = .error "socket hangup"
  ∧ (graphqlWithRetry (fun _ => .netError "socket hangup")
      (fun _ => 0) { }).delays.length ≤ ({ } : RetryConfig).maxRetries :=
  ⟨fun _ => ⟨le_rfl, by norm_num⟩, by norm_num,
    by norm_num [graphqlWithRetry, graphqlWithRetryGo, calculateBackoffDelay],
    by norm_num [graphqlWithRetry, graphqlWithRetryGo, calculateBackoffDelay],
    (graphqlWithRetry_policy (fun _ => .netError "socket hangup")
      (fun _ => 0) { } (fun _ => "socket hangup")
      (fun _ => ⟨le_rfl, by norm_num⟩) (by norm_num)).1⟩

end BulkEditor
